import Mathlib

/-!
BLDC tester: diagnostic engine (`src/motor_analysis.cpp`)

A shallow embedding of the measurement and open-loop-drive routines of the
motor analysis module, followed by theorems about them.

Modelling conventions

* `float` values are `Flt`: a finite value is an exact rational (rounding is
  idealised away), and the IEEE specials `+inf`, `-inf` and `NaN` are kept so
  that division is total in the same way as on the target (`0.5 / 0.0` is
  `+inf`, not an error).  Zero is unsigned and behaves as `+0.0`.
* Hardware reads (`digitalRead`, `analogRead`, `millis`, `getCurrentReading`)
  are inputs supplied by an environment record, in program order.
* Hardware writes (`motor.disable`, `motor.move`, `driver.setPwm`) are appended
  to an event log, together with the sensor reads, in program order.  Calls to
  `delay` and the ADC configuration calls change nothing that is modelled and
  are left out of the log.
* A polling loop consumes one tick per evaluation of its guard.  A loop that
  runs out of ticks before its guard fails or an early exit fires has no result
  (`none`); the events issued so far are still reported.
-/

namespace BldcTester

/-! ## Floating point values -/

/-- Values of the C++ `float` type. -/
inductive Flt where
  | fin (q : ℚ)
  | pinf
  | ninf
  | nan
  deriving DecidableEq

namespace Flt

/-- The C++ comparison `x < y`; any comparison with NaN is false. -/
def lt : Flt → Flt → Bool
  | fin a, fin b => decide (a < b)
  | fin _, pinf => true
  | ninf, fin _ => true
  | ninf, pinf => true
  | _, _ => false

/-- The C++ comparison `x > y`. -/
def gt (x y : Flt) : Bool := lt y x

/-- The C++ comparison `x <= y`; any comparison with NaN is false. -/
def le : Flt → Flt → Bool
  | fin a, fin b => decide (a ≤ b)
  | fin _, pinf => true
  | ninf, fin _ => true
  | ninf, pinf => true
  | pinf, pinf => true
  | ninf, ninf => true
  | _, _ => false

/-- The C++ comparison `x >= y`. -/
def ge (x y : Flt) : Bool := le y x

/-- The C++ comparison `x == y`; NaN is equal to nothing. -/
def feq : Flt → Flt → Bool
  | fin a, fin b => decide (a = b)
  | pinf, pinf => true
  | ninf, ninf => true
  | _, _ => false

/-- The C++ sum `x + y`. -/
def add : Flt → Flt → Flt
  | nan, _ => nan
  | _, nan => nan
  | fin a, fin b => fin (a + b)
  | pinf, ninf => nan
  | ninf, pinf => nan
  | pinf, _ => pinf
  | _, pinf => pinf
  | ninf, _ => ninf
  | _, ninf => ninf

/-- The C++ quotient `x / y`: a finite non-zero value over zero is an infinity,
zero over zero and infinity over infinity are NaN. -/
def div : Flt → Flt → Flt
  | nan, _ => nan
  | _, nan => nan
  | fin a, fin b =>
      if b = 0 then (if a = 0 then nan else if 0 < a then pinf else ninf)
      else fin (a / b)
  | fin _, pinf => fin 0
  | fin _, ninf => fin 0
  | pinf, fin b => if b < 0 then ninf else pinf
  | ninf, fin b => if b < 0 then pinf else ninf
  | pinf, pinf => nan
  | pinf, ninf => nan
  | ninf, pinf => nan
  | ninf, ninf => nan

/-- Conversion of a C++ `int` to `float`. -/
def ofInt (n : Int) : Flt := fin (n : ℚ)

end Flt

/-! ## Hardware interface -/

/-- Levels of the three hall lines as returned by `digitalRead` (1 is `true`). -/
structure HallLines where
  a : Bool
  b : Bool
  c : Bool
  deriving DecidableEq

/-- The 3-bit hall code `(digitalRead(HALL_A) << 2) | (digitalRead(HALL_B) << 1) |
digitalRead(HALL_C)`. -/
def hallCode (h : HallLines) : Nat :=
  (h.a.toNat <<< 2) ||| (h.b.toNat <<< 1) ||| h.c.toNat

/-- Interactions with the hardware, in program order. -/
inductive HwEvent where
  | motorDisable
  | motorMove (target : Flt)
  | setPwm (ua ub uc : Flt)
  | readAdc (adcValue : Int)
  | readCurrent (current : Flt)
  | readHall (lines : HallLines)
  deriving DecidableEq

/-- Width of `unsigned long` on the target (32 bits). -/
def ULONG_MOD : Nat := 4294967296

/-- The loop guard expression `millis() - startTime` in `unsigned long`
arithmetic, where `now` is the value just returned by `millis()`. -/
def elapsed (now startTime : Nat) : Nat :=
  ((now % ULONG_MOD) + ULONG_MOD - (startTime % ULONG_MOD)) % ULONG_MOD

/-! ## Phase resistance (full characterisation path) -/

/-- The record `PhaseStatus`. -/
structure PhaseStatus where
  phaseA_OK : Bool
  phaseB_OK : Bool
  phaseC_OK : Bool
  phaseA_resistance : Flt
  phaseB_resistance : Flt
  phaseC_resistance : Flt
  deriving DecidableEq

/-- The function `getPhaseError`. -/
def getPhaseError (resistance : Flt) : String :=
  if Flt.lt resistance (Flt.fin (1 / 100)) then
    "Possible short circuit"
  else if Flt.gt resistance (Flt.fin 100) then
    "Possible open circuit"
  else if Flt.feq resistance (Flt.fin 0) then
    "No connection detected"
  else
    "Unknown error"

/-- The first `switch` of the loop body of `checkPhaseConnections`: the drive
command for the phase under test (no command for an index outside 0..2). -/
def phaseDrive (testVoltage : Flt) (phase : Nat) : List HwEvent :=
  match phase with
  | 0 => [HwEvent.setPwm testVoltage (Flt.fin 0) (Flt.fin 0)]
  | 1 => [HwEvent.setPwm (Flt.fin 0) testVoltage (Flt.fin 0)]
  | 2 => [HwEvent.setPwm (Flt.fin 0) (Flt.fin 0) testVoltage]
  | _ => []

/-- The second `switch` of the loop body of `checkPhaseConnections`: store the
resistance and the range check for the phase under test. -/
def phaseStore (phases : PhaseStatus) (phase : Nat) (resistance : Flt) : PhaseStatus :=
  let ok := Flt.ge resistance (Flt.fin (1 / 100)) && Flt.le resistance (Flt.fin 100)
  match phase with
  | 0 => { phases with phaseA_resistance := resistance, phaseA_OK := ok }
  | 1 => { phases with phaseB_resistance := resistance, phaseB_OK := ok }
  | 2 => { phases with phaseC_resistance := resistance, phaseC_OK := ok }
  | _ => phases

/-- One pass of the `for` loop of `checkPhaseConnections` for index `phase`,
where `current` is the value returned by `getCurrentReading()` in this pass. -/
def checkPhaseStep (st : PhaseStatus × List HwEvent) (phase : Nat) (current : Flt) :
    PhaseStatus × List HwEvent :=
  let testVoltage := Flt.fin (1 / 2)
  let resistance := Flt.div testVoltage current
  (phaseStore st.1 phase resistance,
   st.2 ++ phaseDrive testVoltage phase
     ++ [HwEvent.readCurrent current,
         HwEvent.setPwm (Flt.fin 0) (Flt.fin 0) (Flt.fin 0)])

/-- The function `checkPhaseConnections`, where `current p` is the value returned
by `getCurrentReading()` in pass `p` of the loop (`p = 0, 1, 2`). -/
def checkPhaseConnections (phases : PhaseStatus) (current : Nat → Flt) :
    PhaseStatus × List HwEvent :=
  (List.range 3).foldl (fun st phase => checkPhaseStep st phase (current phase))
    (phases, [HwEvent.motorDisable])

/-- The OK flag of the phase with loop index `phase` (0 is A, 1 is B, 2 is C). -/
def PhaseStatus.ok (phases : PhaseStatus) (phase : Fin 3) : Bool :=
  match phase with
  | 0 => phases.phaseA_OK
  | 1 => phases.phaseB_OK
  | 2 => phases.phaseC_OK

/-- The stored resistance of the phase with loop index `phase`. -/
def PhaseStatus.resistance (phases : PhaseStatus) (phase : Fin 3) : Flt :=
  match phase with
  | 0 => phases.phaseA_resistance
  | 1 => phases.phaseB_resistance
  | 2 => phases.phaseC_resistance

/-! ## Health check: hall sensors -/

/-- The record `HallStatus`. -/
structure HallStatus where
  hallA_OK : Bool
  hallB_OK : Bool
  hallC_OK : Bool
  hallA_changing : Bool
  hallB_changing : Bool
  hallC_changing : Bool
  deriving DecidableEq

/-- One evaluation of the guard of a hall polling loop: the value `millis()`
returns there and the hall lines read by the body if the guard holds. -/
structure PollTick where
  now : Nat
  hall : HallLines
  deriving DecidableEq

/-- Inputs read by `checkHallSensors`: the start time, the initial hall levels,
the ticks of the monitoring loop and the levels read by `validateHallPatterns`. -/
structure HallEnv where
  startTime : Nat
  initial : HallLines
  polls : List PollTick
  reread : HallLines

/-- The array `validPatterns` of `validateHallPatterns`. -/
def validPatterns : List Nat := [1, 3, 2, 6, 4, 5]

/-- The search loop of `validateHallPatterns` over the remaining table entries:
the final value of `validPatternFound`. -/
def validPatternFound (hallState : Nat) : List Nat → Bool
  | [] => false
  | v :: rest => if hallState = v then true else validPatternFound hallState rest

/-- The function `validateHallPatterns`, where `lines` are the hall levels it
reads. -/
def validateHallPatterns (halls : HallStatus) (lines : HallLines) : HallStatus :=
  let hallState := hallCode lines % 256
  if !validPatternFound hallState validPatterns then
    { halls with hallA_OK := false, hallB_OK := false, hallC_OK := false }
  else
    halls

/-- The monitoring loop of `checkHallSensors`. -/
def checkHallLoop (startTime : Nat) (initial : HallLines) :
    HallStatus → List HwEvent → List PollTick → Option HallStatus × List HwEvent
  | _, log, [] => (none, log)
  | halls, log, p :: rest =>
      if elapsed p.now startTime < 1000 then
        checkHallLoop startTime initial
          { halls with
            hallA_changing := halls.hallA_changing || (p.hall.a != initial.a),
            hallB_changing := halls.hallB_changing || (p.hall.b != initial.b),
            hallC_changing := halls.hallC_changing || (p.hall.c != initial.c) }
          (log ++ [HwEvent.readHall p.hall]) rest
      else
        (some halls, log)

/-- The function `checkHallSensors`. -/
def checkHallSensors (halls : HallStatus) (env : HallEnv) :
    Option HallStatus × List HwEvent :=
  match checkHallLoop env.startTime env.initial halls
      [HwEvent.readHall env.initial, HwEvent.motorMove (Flt.fin 1)] env.polls with
  | (none, log) => (none, log)
  | (some halls, log) =>
      let halls := { halls with
        hallA_OK := halls.hallA_changing,
        hallB_OK := halls.hallB_changing,
        hallC_OK := halls.hallC_changing }
      (some (validateHallPatterns halls env.reread),
       log ++ [HwEvent.motorMove (Flt.fin 0), HwEvent.readHall env.reread])

/-! ## Pole pair detection -/

/-- Inputs read by `detectPolePairs`: the start time, the initial hall levels and
the ticks of the counting loop. -/
structure PolePairEnv where
  startTime : Nat
  initial : HallLines
  polls : List PollTick

/-- The counting loop of `detectPolePairs`, from the locals `hallState1` and
`transitions`: the value of `transitions` when the loop is left. -/
def countTransitions (startTime : Nat) :
    Nat → Nat → List HwEvent → List PollTick → Option Nat × List HwEvent
  | _, _, log, [] => (none, log)
  | hallState1, transitions, log, p :: rest =>
      if elapsed p.now startTime < 5000 then
        let hallState2 := hallCode p.hall
        let log := log ++ [HwEvent.readHall p.hall]
        let transitions := if hallState1 ≠ hallState2 then transitions + 1 else transitions
        let hallState1 := if hallState1 ≠ hallState2 then hallState2 else hallState1
        if transitions ≥ 6 then
          (some transitions, log)
        else
          countTransitions startTime hallState1 transitions log rest
      else
        (some transitions, log)

/-- The last two statements of `detectPolePairs`: the value returned for a final
count `transitions`. -/
def polePairsOf (transitions : Nat) : Nat :=
  if transitions = 0 then 7 else transitions / 6

/-- Outcome of a call of `detectPolePairs`: the final value of the local
`transitions` and the returned value (both absent if the ticks ran out), and the
hardware events. -/
structure PolePairRun where
  transitions : Option Nat
  result : Option Nat
  log : List HwEvent

/-- The function `detectPolePairs`. -/
def detectPolePairs (env : PolePairEnv) : PolePairRun :=
  match countTransitions env.startTime (hallCode env.initial) 0
      [HwEvent.motorMove (Flt.fin 1), HwEvent.readHall env.initial] env.polls with
  | (none, log) => { transitions := none, result := none, log := log }
  | (some transitions, log) =>
      { transitions := some transitions,
        result := some (polePairsOf transitions),
        log := log ++ [HwEvent.motorMove (Flt.fin 0)] }

/-! ## Open-loop test -/

/-- The record `OpenLoopTestResult`. -/
structure OpenLoopTestResult where
  success : Bool
  maxCurrent : Flt
  avgCurrent : Flt
  currentLimitExceeded : Bool
  hallsWorking : Bool
  errorMessage : String
  deriving DecidableEq

/-- One evaluation of the guard of the commutation loop: the value `millis()`
returns there, and the current and hall levels the body reads if it gets to
them. -/
structure LoopTick where
  now : Nat
  current : Flt
  hall : HallLines
  deriving DecidableEq

/-- Inputs read by `runOpenLoopTest`. -/
structure OpenLoopEnv where
  initial : HallLines
  startTime : Nat
  ticks : List LoopTick

/-- Local variables of `runOpenLoopTest` during the loop, with the event log. -/
structure OpenLoopState where
  result : OpenLoopTestResult
  currentSum : Flt
  samples : Nat
  hallAChanged : Bool
  hallBChanged : Bool
  hallCChanged : Bool
  log : List HwEvent
  deriving DecidableEq

/-- Outcome of a call: the returned value if the call returned within the given
ticks, the hardware events, and the number of current samples taken. -/
structure OpenLoopRun where
  result : Option OpenLoopTestResult
  log : List HwEvent
  samples : Nat
  deriving DecidableEq

/-- The Arduino core macro `constrain(amt, low, high)`:
`((amt) < (low) ? (low) : ((amt) > (high) ? (high) : (amt)))`. -/
def constrain (amt low high : Flt) : Flt :=
  if Flt.lt amt low then low else if Flt.gt amt high then high else amt

/-- The constant `CURRENT_LIMIT`. -/
def CURRENT_LIMIT : Flt := Flt.fin 10

/-- The constant `MIN_DUTY`. -/
def MIN_DUTY : Flt := Flt.fin 0

/-- The constant `MAX_DUTY`. -/
def MAX_DUTY : Flt := Flt.fin (1 / 2)

/-- The `switch (hallState)` of the loop body: the drive command of the six
valid cases, `none` for the `default` case. -/
def commutation (hallState : Nat) (dutyCycle : Flt) : Option HwEvent :=
  match hallState with
  | 1 => some (HwEvent.setPwm dutyCycle (Flt.fin 0) (Flt.fin 0))
  | 3 => some (HwEvent.setPwm (Flt.fin 0) dutyCycle (Flt.fin 0))
  | 2 => some (HwEvent.setPwm (Flt.fin 0) dutyCycle (Flt.fin 0))
  | 6 => some (HwEvent.setPwm (Flt.fin 0) (Flt.fin 0) dutyCycle)
  | 4 => some (HwEvent.setPwm (Flt.fin 0) (Flt.fin 0) dutyCycle)
  | 5 => some (HwEvent.setPwm dutyCycle (Flt.fin 0) (Flt.fin 0))
  | _ => none

/-- How one pass of the loop body ends. -/
inductive BodyExit where
  | next (st : OpenLoopState)
  | ret (st : OpenLoopState)

/-- One pass of the body of the commutation loop.  `showCurrent` is the Arduino
conversion `String(current, 2)`; `dutyCycle` is the clamped duty. -/
def openLoopBody (showCurrent : Flt → String) (dutyCycle : Flt)
    (initialHallState : Nat) (st : OpenLoopState) (t : LoopTick) : BodyExit :=
  let current := t.current
  let st := { st with
    currentSum := Flt.add st.currentSum current,
    samples := st.samples + 1,
    log := st.log ++ [HwEvent.readCurrent current] }
  let st := if Flt.gt current st.result.maxCurrent then
      { st with result := { st.result with maxCurrent := current } }
    else st
  if Flt.gt current CURRENT_LIMIT then
    BodyExit.ret { st with
      result := { st.result with
        currentLimitExceeded := true,
        errorMessage := "Current limit exceeded: " ++ showCurrent current ++ "A" },
      log := st.log ++ [HwEvent.motorDisable] }
  else
    let hallState := hallCode t.hall % 256
    let st := { st with
      log := st.log ++ [HwEvent.readHall t.hall],
      hallAChanged := st.hallAChanged || ((hallState >>> 2) != (initialHallState >>> 2)),
      hallBChanged := st.hallBChanged
        || (((hallState >>> 1) &&& 1) != ((initialHallState >>> 1) &&& 1)),
      hallCChanged := st.hallCChanged || ((hallState &&& 1) != (initialHallState &&& 1)) }
    match commutation hallState dutyCycle with
    | some cmd => BodyExit.next { st with log := st.log ++ [cmd] }
    | none =>
        BodyExit.ret { st with
          result := { st.result with
            errorMessage := "Invalid hall state detected: " ++ toString hallState },
          log := st.log ++ [HwEvent.motorDisable] }

/-- How the commutation loop is left. -/
inductive LoopExit where
  | timedOut (st : OpenLoopState)
  | returned (st : OpenLoopState)
  | starved (st : OpenLoopState)

/-- The commutation loop `while ((millis() - startTime) < duration)`. -/
def openLoop (showCurrent : Flt → String) (dutyCycle : Flt) (initialHallState : Nat)
    (startTime duration : Nat) : OpenLoopState → List LoopTick → LoopExit
  | st, [] => LoopExit.starved st
  | st, t :: rest =>
      if elapsed t.now startTime < duration then
        match openLoopBody showCurrent dutyCycle initialHallState st t with
        | BodyExit.next st => openLoop showCurrent dutyCycle initialHallState startTime duration st rest
        | BodyExit.ret st => LoopExit.returned st
      else
        LoopExit.timedOut st

/-- The statements of `runOpenLoopTest` after the loop. -/
def openLoopFinish (st : OpenLoopState) : OpenLoopRun :=
  let log := st.log ++ [HwEvent.motorDisable]
  let result := { st.result with
    avgCurrent := Flt.div st.currentSum (Flt.ofInt st.samples) }
  let result := { result with
    hallsWorking := st.hallAChanged && st.hallBChanged && st.hallCChanged }
  let result := { result with success := true }
  let result := if !result.hallsWorking then
      let msg := "Not all hall sensors changed state. "
      let msg := if !st.hallAChanged then msg ++ "Hall A stuck. " else msg
      let msg := if !st.hallBChanged then msg ++ "Hall B stuck. " else msg
      let msg := if !st.hallCChanged then msg ++ "Hall C stuck. " else msg
      { result with errorMessage := msg }
    else result
  { result := some result, log := log, samples := st.samples }

/-- The statements of `runOpenLoopTest` before the loop: the initial values of the
locals, with the initial hall read and `motor.disable()` logged. -/
def openLoopInit (initial : HallLines) : OpenLoopState :=
  let result : OpenLoopTestResult := {
    success := false,
    maxCurrent := Flt.fin 0,
    avgCurrent := Flt.fin 0,
    currentLimitExceeded := false,
    hallsWorking := false,
    errorMessage := "" }
  { result := result,
    currentSum := Flt.fin 0,
    samples := 0,
    hallAChanged := false,
    hallBChanged := false,
    hallCChanged := false,
    log := [HwEvent.readHall initial, HwEvent.motorDisable] }

/-- The function `runOpenLoopTest`. -/
def runOpenLoopTest (showCurrent : Flt → String) (dutyCycle : Flt) (duration : Nat)
    (env : OpenLoopEnv) : OpenLoopRun :=
  let dutyCycle := constrain dutyCycle MIN_DUTY MAX_DUTY
  let initialHallState := hallCode env.initial % 256
  match openLoop showCurrent dutyCycle initialHallState env.startTime duration
      (openLoopInit env.initial) env.ticks with
  | LoopExit.timedOut st => openLoopFinish st
  | LoopExit.returned st => { result := some st.result, log := st.log, samples := st.samples }
  | LoopExit.starved st => { result := none, log := st.log, samples := st.samples }

/-! ## Health check: report -/

/-- The record `MotorHealth`. -/
structure MotorHealth where
  phases : PhaseStatus
  halls : HallStatus
  inductanceOK : Bool
  motorTemperatureOK : Bool
  errorMessage : String
  deriving DecidableEq

/-- The function `getHallError`. -/
def getHallError (changing : Bool) : String :=
  if !changing then
    "No state changes detected - sensor may be stuck"
  else
    "Invalid signal pattern detected"

/-- The statements of `checkMotorHealth` after the two checks: the value of
`health.errorMessage` built from the stored flags and resistances. -/
def healthMessage (phases : PhaseStatus) (halls : HallStatus) : String :=
  let msg := ""
  let msg := if !phases.phaseA_OK then
      msg ++ ("Phase A: " ++ getPhaseError phases.phaseA_resistance ++ ". ") else msg
  let msg := if !phases.phaseB_OK then
      msg ++ ("Phase B: " ++ getPhaseError phases.phaseB_resistance ++ ". ") else msg
  let msg := if !phases.phaseC_OK then
      msg ++ ("Phase C: " ++ getPhaseError phases.phaseC_resistance ++ ". ") else msg
  let msg := if !halls.hallA_OK then
      msg ++ ("Hall A: " ++ getHallError halls.hallA_changing ++ ". ") else msg
  let msg := if !halls.hallB_OK then
      msg ++ ("Hall B: " ++ getHallError halls.hallB_changing ++ ". ") else msg
  let msg := if !halls.hallC_OK then
      msg ++ ("Hall C: " ++ getHallError halls.hallC_changing ++ ". ") else msg
  if msg.length = 0 then "All systems operational" else msg

/-- The function `checkMotorHealth`, where `current p` is the value returned by
`getCurrentReading()` in pass `p` of the phase check and `env` holds the inputs of
the hall check. -/
def checkMotorHealth (current : Nat → Flt) (env : HallEnv) :
    Option MotorHealth × List HwEvent :=
  let phases : PhaseStatus := {
    phaseA_OK := true, phaseB_OK := true, phaseC_OK := true,
    phaseA_resistance := Flt.fin 0, phaseB_resistance := Flt.fin 0,
    phaseC_resistance := Flt.fin 0 }
  let halls : HallStatus := {
    hallA_OK := true, hallB_OK := true, hallC_OK := true,
    hallA_changing := false, hallB_changing := false, hallC_changing := false }
  let checkedPhases := checkPhaseConnections phases current
  match checkHallSensors halls env with
  | (none, log) => (none, checkedPhases.2 ++ log)
  | (some halls, log) =>
      (some {
          phases := checkedPhases.1,
          halls := halls,
          inductanceOK := false,
          motorTemperatureOK := true,
          errorMessage := healthMessage checkedPhases.1 halls },
        checkedPhases.2 ++ log)

/-! ## Hall verification (full characterisation path) -/

/-- Inputs read by `verifyHallSensors`: the start time, the initial hall levels
and the ticks of the monitoring loop. -/
structure VerifyEnv where
  startTime : Nat
  initial : HallLines
  polls : List PollTick

/-- The monitoring loop of `verifyHallSensors` with the statements that follow
it, from the locals `hallAChanged`, `hallBChanged` and `hallCChanged`. -/
def verifyLoop (startTime : Nat) (initial : HallLines) :
    Bool → Bool → Bool → List HwEvent → List PollTick → Option Bool × List HwEvent
  | _, _, _, log, [] => (none, log)
  | hallAChanged, hallBChanged, hallCChanged, log, p :: rest =>
      if elapsed p.now startTime < 1000 then
        let log := log ++ [HwEvent.readHall p.hall]
        let hallAChanged := if p.hall.a != initial.a then true else hallAChanged
        let hallBChanged := if p.hall.b != initial.b then true else hallBChanged
        let hallCChanged := if p.hall.c != initial.c then true else hallCChanged
        if hallAChanged && hallBChanged && hallCChanged then
          (some true, log ++ [HwEvent.motorMove (Flt.fin 0)])
        else
          verifyLoop startTime initial hallAChanged hallBChanged hallCChanged log rest
      else
        (some false, log ++ [HwEvent.motorMove (Flt.fin 0)])

/-- The function `verifyHallSensors`. -/
def verifyHallSensors (env : VerifyEnv) : Option Bool × List HwEvent :=
  verifyLoop env.startTime env.initial false false false
    [HwEvent.readHall env.initial, HwEvent.motorMove (Flt.fin 1)] env.polls

/-! ## Parameter measurement -/

/-- The local state with which the commutation loop is left. -/
def LoopExit.st : LoopExit → OpenLoopState
  | LoopExit.timedOut st => st
  | LoopExit.returned st => st
  | LoopExit.starved st => st

/-- The local state with which a pass of the loop body ends. -/
def BodyExit.st : BodyExit → OpenLoopState
  | BodyExit.next st => st
  | BodyExit.ret st => st

/-- A tick of the commutation loop whose pass runs to the end of the body: the
guard holds, the current is not above the limit and the hall code is valid. -/
def LoopTick.passes (startTime duration : Nat) (t : LoopTick) : Prop :=
  elapsed t.now startTime < duration
    ∧ Flt.gt t.current CURRENT_LIMIT = false
    ∧ 1 ≤ hallCode t.hall ∧ hallCode t.hall ≤ 6

/-- Every leg of a `setPwm` event is zero or `duty`; other events are not
constrained. -/
def legsZeroOr (duty : Flt) : HwEvent → Prop
  | HwEvent.setPwm ua ub uc =>
      (ua = Flt.fin 0 ∨ ua = duty) ∧ (ub = Flt.fin 0 ∨ ub = duty) ∧ (uc = Flt.fin 0 ∨ uc = duty)
  | _ => True

/-- Whether the hall line selected by `line` differs from its level in `initial`
in at least one of the hall reads `reads`. -/
def lineChanged (line : HallLines → Bool) (initial : HallLines) (reads : List HallLines) :
    Bool :=
  reads.any (fun h => line h != line initial)

/-- The hall reads of the polls that precede the first tick at which the 1 s
window of a hall monitoring loop has expired. -/
def pollWindow (startTime : Nat) (polls : List PollTick) : List HallLines :=
  (polls.takeWhile (fun x => decide (elapsed x.now startTime < 1000))).map PollTick.hall

/-- Example input of `verifyHallSensors`: from the invalid code 0, line A changes
at the first poll and all lines have changed at the second (code 7); the window
expires at the third tick. -/
def allToggle : VerifyEnv :=
  { startTime := 0,
    initial := { a := false, b := false, c := false },
    polls := [{ now := 1, hall := { a := true, b := false, c := false } },
              { now := 2, hall := { a := true, b := true, c := true } },
              { now := 1000, hall := { a := true, b := true, c := true } }] }

/-- The text is not empty and its first character is not the capital letter A. -/
def startsOtherThanA (msg : String) : Prop :=
  ∃ (c : Char) (rest : List Char), msg.data = c :: rest ∧ c ≠ 'A'

/-- The sentence added to the health message for one component: nothing when the
component is OK, otherwise its label, the diagnosis and a full stop. -/
def healthPiece (ok : Bool) (label diagnosis : String) : String :=
  if !ok then label ++ diagnosis ++ ". " else ""

/-- The six pieces of the health message, concatenated in the order of the
source: phases A, B, C, then halls A, B, C. -/
def healthPieces (phases : PhaseStatus) (halls : HallStatus) : String :=
  "" ++ healthPiece phases.phaseA_OK "Phase A: " (getPhaseError phases.phaseA_resistance)
    ++ healthPiece phases.phaseB_OK "Phase B: " (getPhaseError phases.phaseB_resistance)
    ++ healthPiece phases.phaseC_OK "Phase C: " (getPhaseError phases.phaseC_resistance)
    ++ healthPiece halls.hallA_OK "Hall A: " (getHallError halls.hallA_changing)
    ++ healthPiece halls.hallB_OK "Hall B: " (getHallError halls.hallB_changing)
    ++ healthPiece halls.hallC_OK "Hall C: " (getHallError halls.hallC_changing)

/-- Example input of `checkHallSensors`: all three lines toggle during the
window, which expires at the second tick, and the re-read code is 6. -/
def hallsToggle : HallEnv :=
  { startTime := 0,
    initial := { a := false, b := false, c := true },
    polls := [{ now := 10, hall := { a := true, b := true, c := false } },
              { now := 1000, hall := { a := true, b := true, c := false } }],
    reread := { a := true, b := true, c := false } }

/-- Example input of `detectPolePairs`: six hall transitions, then a late tick. -/
def sixTransitions : PolePairEnv :=
  { startTime := 0,
    initial := { a := false, b := false, c := true },
    polls := [{ now := 101, hall := { a := false, b := true, c := true } },
              { now := 102, hall := { a := false, b := true, c := false } },
              { now := 103, hall := { a := true, b := true, c := false } },
              { now := 104, hall := { a := true, b := false, c := false } },
              { now := 105, hall := { a := true, b := false, c := true } },
              { now := 106, hall := { a := false, b := false, c := true } },
              { now := 5000, hall := { a := false, b := false, c := true } }] }

/-- Example tick of the commutation loop: 2 A, hall code 1, at 100 ms. -/
def tickOk : LoopTick :=
  { now := 100, current := Flt.fin 2, hall := { a := false, b := false, c := true } }

/-- Example tick of the commutation loop: 12 A, at 111 ms. -/
def tickOver : LoopTick :=
  { now := 111, current := Flt.fin 12, hall := { a := false, b := true, c := true } }

/-- Example tick of the commutation loop: 2 A, hall code 7, at 111 ms. -/
def tickBadHall : LoopTick :=
  { now := 111, current := Flt.fin 2, hall := { a := true, b := true, c := true } }

/-- Example tick of the commutation loop: 3 A, hall code 6, at 111 ms. -/
def tickSix : LoopTick :=
  { now := 111, current := Flt.fin 3, hall := { a := true, b := true, c := false } }

/-- Example tick of the commutation loop: the clock reads 2000 ms. -/
def tickLate : LoopTick :=
  { now := 2000, current := Flt.fin 2, hall := { a := true, b := true, c := false } }

/-- Example input of `detectPolePairs`: five hall transitions, then the timeout. -/
def fiveTransitions : PolePairEnv :=
  { startTime := 0,
    initial := { a := false, b := false, c := true },
    polls := [{ now := 101, hall := { a := false, b := true, c := true } },
              { now := 102, hall := { a := false, b := true, c := false } },
              { now := 103, hall := { a := true, b := true, c := false } },
              { now := 104, hall := { a := true, b := false, c := false } },
              { now := 105, hall := { a := true, b := false, c := true } },
              { now := 5000, hall := { a := true, b := false, c := true } }] }

theorem checkPhaseConnections_fst (phases : PhaseStatus) (current : Nat → Flt) :
    (checkPhaseConnections phases current).1
      = phaseStore (phaseStore (phaseStore phases 0 (Flt.div (Flt.fin (1 / 2)) (current 0)))
          1 (Flt.div (Flt.fin (1 / 2)) (current 1)))
          2 (Flt.div (Flt.fin (1 / 2)) (current 2)) := by
  simp [checkPhaseConnections, List.range_succ, checkPhaseStep]

/-- C7: the code classifies the 0.0 sentinel as a short circuit, and no input at
all is classified as "No connection detected" (the `== 0.0` branch is tested
after `< 0.01` and is never reached). -/
theorem getPhaseError_zero :
    getPhaseError (Flt.fin 0) = "Possible short circuit"
    ∧ ∀ resistance : Flt, getPhaseError resistance ≠ "No connection detected" := by
  refine ⟨?_, ?_⟩
  · simp [getPhaseError, Flt.lt]
  · intro resistance
    unfold getPhaseError
    split_ifs with h1 h2 h3
    · decide
    · decide
    · exfalso
      cases resistance with
      | fin q =>
          simp only [Flt.feq, decide_eq_true_eq] at h3
          subst h3
          simp [Flt.lt] at h1
      | pinf => simp [Flt.feq] at h3
      | ninf => simp [Flt.feq] at h3
      | nan => simp [Flt.feq] at h3
    · decide

theorem validPatternFound_iff (lines : HallLines) :
    validPatternFound (hallCode lines % 256) validPatterns
      = decide (1 ≤ hallCode lines ∧ hallCode lines ≤ 6) := by
  rcases lines with ⟨a, b, c⟩
  cases a <;> cases b <;> cases c <;> decide

theorem checkHallLoop_returns (startTime : Nat) (initial : HallLines)
    (polls : List PollTick) :
    ∀ (halls : HallStatus) (log : List HwEvent),
      (∃ p ∈ polls, ¬ elapsed p.now startTime < 1000) →
      ∃ out, (checkHallLoop startTime initial halls log polls).1 = some out := by
  induction polls with
  | nil => intro _ _ h; simp at h
  | cons p rest ih =>
      intro halls log h
      by_cases hg : elapsed p.now startTime < 1000
      · have hrest : ∃ q ∈ rest, ¬ elapsed q.now startTime < 1000 := by
          rcases h with ⟨q, hq, hq2⟩
          rcases List.mem_cons.mp hq with rfl | hq
          · exact absurd hg hq2
          · exact ⟨q, hq, hq2⟩
        simp only [checkHallLoop, if_pos hg]
        exact ih _ _ hrest
      · exact ⟨halls, by simp [checkHallLoop, hg]⟩

/-- C9: when the monitoring window of `checkHallSensors` expires within the given
ticks, the call returns a status in which each OK flag equals its changing flag
AND "the re-read hall code is one of 1..6": with a re-read code of 0 or 7 all
three OK flags are false, with a valid code each OK flag is its changing flag. -/
theorem checkHallSensors_ok (halls : HallStatus) (env : HallEnv)
    (h : ∃ p ∈ env.polls, ¬ elapsed p.now env.startTime < 1000) :
    ∃ out, (checkHallSensors halls env).1 = some out
      ∧ out.hallA_OK
          = (out.hallA_changing && decide (1 ≤ hallCode env.reread ∧ hallCode env.reread ≤ 6))
      ∧ out.hallB_OK
          = (out.hallB_changing && decide (1 ≤ hallCode env.reread ∧ hallCode env.reread ≤ 6))
      ∧ out.hallC_OK
          = (out.hallC_changing && decide (1 ≤ hallCode env.reread ∧ hallCode env.reread ≤ 6))
      ∧ ((hallCode env.reread = 0 ∨ hallCode env.reread = 7) →
          out.hallA_OK = false ∧ out.hallB_OK = false ∧ out.hallC_OK = false)
      ∧ ((1 ≤ hallCode env.reread ∧ hallCode env.reread ≤ 6) →
          out.hallA_OK = out.hallA_changing ∧ out.hallB_OK = out.hallB_changing
            ∧ out.hallC_OK = out.hallC_changing) := by
  obtain ⟨st, hst⟩ := checkHallLoop_returns env.startTime env.initial env.polls halls
    [HwEvent.readHall env.initial, HwEvent.motorMove (Flt.fin 1)] h
  have hpair : checkHallLoop env.startTime env.initial halls
      [HwEvent.readHall env.initial, HwEvent.motorMove (Flt.fin 1)] env.polls
      = (some st, (checkHallLoop env.startTime env.initial halls
          [HwEvent.readHall env.initial, HwEvent.motorMove (Flt.fin 1)] env.polls).2) := by
    rw [← hst]
  refine ⟨validateHallPatterns { st with
        hallA_OK := st.hallA_changing,
        hallB_OK := st.hallB_changing,
        hallC_OK := st.hallC_changing } env.reread, ?_, ?_⟩
  · simp only [checkHallSensors]
    rw [hpair]
  · simp only [validateHallPatterns, validPatternFound_iff]
    by_cases hv : 1 ≤ hallCode env.reread ∧ hallCode env.reread ≤ 6
    · simp [hv]
      omega
    · simp [hv]

/-- C9 at a concrete input: line A toggles during the window, the window expires
at the second tick, and the re-read code is 7, so no OK flag is set. -/
theorem checkHallSensors_ok_witness :
    (∃ p ∈ [({ now := 10, hall := { a := true, b := false, c := true } } : PollTick),
              { now := 1000, hall := { a := true, b := false, c := true } }],
        ¬ elapsed p.now 0 < 1000)
    ∧ ∃ out, (checkHallSensors
          { hallA_OK := true, hallB_OK := true, hallC_OK := true,
            hallA_changing := false, hallB_changing := false, hallC_changing := false }
          { startTime := 0, initial := { a := false, b := false, c := true },
            polls := [{ now := 10, hall := { a := true, b := false, c := true } },
                      { now := 1000, hall := { a := true, b := false, c := true } }],
            reread := { a := true, b := true, c := true } }).1 = some out
        ∧ out.hallA_changing = true ∧ out.hallA_OK = false :=
  have hex : ∃ p ∈ [({ now := 10, hall := { a := true, b := false, c := true } } : PollTick),
              { now := 1000, hall := { a := true, b := false, c := true } }],
        ¬ elapsed p.now 0 < 1000 :=
    ⟨{ now := 1000, hall := { a := true, b := false, c := true } }, by simp, by decide⟩
  ⟨hex,
   match checkHallSensors_ok
      { hallA_OK := true, hallB_OK := true, hallC_OK := true,
        hallA_changing := false, hallB_changing := false, hallC_changing := false }
      { startTime := 0, initial := { a := false, b := false, c := true },
        polls := [{ now := 10, hall := { a := true, b := false, c := true } },
                  { now := 1000, hall := { a := true, b := false, c := true } }],
        reread := { a := true, b := true, c := true } } hex with
   | ⟨out, hout, _, _, _, hbad, _⟩ =>
       ⟨out, hout, by
          have hval : (checkHallSensors
              { hallA_OK := true, hallB_OK := true, hallC_OK := true,
                hallA_changing := false, hallB_changing := false, hallC_changing := false }
              { startTime := 0, initial := { a := false, b := false, c := true },
                polls := [{ now := 10, hall := { a := true, b := false, c := true } },
                          { now := 1000, hall := { a := true, b := false, c := true } }],
                reread := { a := true, b := true, c := true } }).1
              = some { hallA_OK := false, hallB_OK := false, hallC_OK := false,
                       hallA_changing := true, hallB_changing := false,
                       hallC_changing := false } := by decide
          rw [hval] at hout
          cases hout
          rfl,
        (hbad (Or.inr (by decide))).1⟩⟩

/-! ## Theorems: pole pair detection -/

theorem countTransitions_returns (startTime : Nat) (polls : List PollTick) :
    ∀ (hallState1 transitions : Nat) (log : List HwEvent),
      (∃ p ∈ polls, ¬ elapsed p.now startTime < 5000) →
      ∃ t, (countTransitions startTime hallState1 transitions log polls).1 = some t := by
  induction polls with
  | nil => intro _ _ _ h; simp at h
  | cons p rest ih =>
      intro hallState1 transitions log h
      by_cases hg : elapsed p.now startTime < 5000
      · have hrest : ∃ q ∈ rest, ¬ elapsed q.now startTime < 5000 := by
          rcases h with ⟨q, hq, hq2⟩
          rcases List.mem_cons.mp hq with rfl | hq
          · exact absurd hg hq2
          · exact ⟨q, hq, hq2⟩
        simp only [countTransitions, if_pos hg]
        split_ifs <;> first | exact ⟨_, rfl⟩ | exact ih _ _ _ hrest
      · exact ⟨transitions, by simp [countTransitions, hg]⟩

/-- C10: when the timeout of `detectPolePairs` expires within the given ticks (or
six transitions are counted before that), the call returns, and with `t` the final
count of transitions the returned value is 7 if t = 0 and t / 6 (integer
division) otherwise; as a function of the count, 12 gives 2 and 5 gives 0. -/
theorem detectPolePairs_result (env : PolePairEnv)
    (h : ∃ p ∈ env.polls, ¬ elapsed p.now env.startTime < 5000) :
    (∃ t, (detectPolePairs env).transitions = some t
      ∧ (detectPolePairs env).result = some (if t = 0 then 7 else t / 6))
    ∧ (∀ t, polePairsOf t = if t = 0 then 7 else t / 6)
    ∧ polePairsOf 0 = 7 ∧ polePairsOf 12 = 2 ∧ polePairsOf 5 = 0 := by
  refine ⟨?_, fun t => rfl, by decide, by decide, by decide⟩
  obtain ⟨t, ht⟩ := countTransitions_returns env.startTime env.polls (hallCode env.initial) 0
    [HwEvent.motorMove (Flt.fin 1), HwEvent.readHall env.initial] h
  have hpair : countTransitions env.startTime (hallCode env.initial) 0
      [HwEvent.motorMove (Flt.fin 1), HwEvent.readHall env.initial] env.polls
      = (some t, (countTransitions env.startTime (hallCode env.initial) 0
          [HwEvent.motorMove (Flt.fin 1), HwEvent.readHall env.initial] env.polls).2) := by
    rw [← ht]
  refine ⟨t, ?_, ?_⟩
  · simp only [detectPolePairs]; rw [hpair]
  · simp only [detectPolePairs]; rw [hpair]; rfl

/-- C10 at a concrete input: five transitions followed by the timeout give a
final count of 5 and a returned value of 0. -/
theorem detectPolePairs_result_witness :
    (∃ p ∈ fiveTransitions.polls, ¬ elapsed p.now fiveTransitions.startTime < 5000)
    ∧ (detectPolePairs fiveTransitions).transitions = some 5
    ∧ (detectPolePairs fiveTransitions).result = some 0
    ∧ ∃ t, (detectPolePairs fiveTransitions).transitions = some t
        ∧ (detectPolePairs fiveTransitions).result = some (if t = 0 then 7 else t / 6) :=
  have hex : ∃ p ∈ fiveTransitions.polls,
      ¬ elapsed p.now fiveTransitions.startTime < 5000 :=
    ⟨{ now := 5000, hall := { a := true, b := false, c := true } },
      by simp [fiveTransitions], by decide⟩
  ⟨hex, by decide, by decide, (detectPolePairs_result fiveTransitions hex).1⟩

/-! ## Theorems: open-loop test -/

theorem hallCode_lt (lines : HallLines) : hallCode lines < 8 := by
  rcases lines with ⟨a, b, c⟩
  cases a <;> cases b <;> cases c <;> decide

theorem hallCode_mod (lines : HallLines) : hallCode lines % 256 = hallCode lines :=
  Nat.mod_eq_of_lt (lt_trans (hallCode_lt lines) (by decide))

theorem commutation_table (h : Nat) (duty : Flt) (h1 : 1 ≤ h) (h6 : h ≤ 6) :
    ∃ ua ub uc, commutation h duty = some (HwEvent.setPwm ua ub uc)
      ∧ ((h = 1 ∨ h = 5) → ua = duty ∧ ub = Flt.fin 0 ∧ uc = Flt.fin 0)
      ∧ ((h = 2 ∨ h = 3) → ua = Flt.fin 0 ∧ ub = duty ∧ uc = Flt.fin 0)
      ∧ ((h = 4 ∨ h = 6) → ua = Flt.fin 0 ∧ ub = Flt.fin 0 ∧ uc = duty) := by
  interval_cases h <;> exact ⟨_, _, _, rfl, by simp⟩

theorem commutation_invalid (h : Nat) (duty : Flt) (hbad : ¬ (1 ≤ h ∧ h ≤ 6)) :
    commutation h duty = none := by
  unfold commutation
  split <;> first | rfl | (exfalso; omega)

theorem commutation_legs (h : Nat) (duty : Flt) (cmd : HwEvent)
    (hc : commutation h duty = some cmd) : legsZeroOr duty cmd := by
  unfold commutation at hc
  split at hc <;> first
    | (cases hc; simp [legsZeroOr])
    | simp at hc

/-- A pass over a tick that `passes` continues the loop, logging the two reads
and the drive command of `commutation`, and leaves the status fields of the
result as they were. -/
theorem openLoopBody_passes (showCurrent : Flt → String) (duty : Flt) (init : Nat)
    (startTime duration : Nat) (st : OpenLoopState) (t : LoopTick)
    (ht : t.passes startTime duration) :
    ∃ cmd st1, commutation (hallCode t.hall) duty = some cmd
      ∧ openLoopBody showCurrent duty init st t = BodyExit.next st1
      ∧ st1.log = st.log ++ [HwEvent.readCurrent t.current, HwEvent.readHall t.hall, cmd]
      ∧ st1.samples = st.samples + 1
      ∧ st1.result.success = st.result.success
      ∧ st1.result.currentLimitExceeded = st.result.currentLimitExceeded
      ∧ st1.result.hallsWorking = st.result.hallsWorking
      ∧ st1.result.errorMessage = st.result.errorMessage := by
  obtain ⟨_, hover, h1, h6⟩ := ht
  obtain ⟨ua, ub, uc, hcmd, _⟩ := commutation_table (hallCode t.hall) duty h1 h6
  cases hb : openLoopBody showCurrent duty init st t with
  | next st1 =>
      refine ⟨_, st1, hcmd, rfl, ?_⟩
      by_cases hm : Flt.gt t.current st.result.maxCurrent = true
      · simp [openLoopBody, hm, hover, hallCode_mod, hcmd] at hb
        subst hb
        simp
      · simp [openLoopBody, hm, hover, hallCode_mod, hcmd] at hb
        subst hb
        simp
  | ret st1 =>
      by_cases hm : Flt.gt t.current st.result.maxCurrent = true
      · simp [openLoopBody, hm, hover, hallCode_mod, hcmd] at hb
      · simp [openLoopBody, hm, hover, hallCode_mod, hcmd] at hb

/-- The loop over a list of ticks that all pass, followed by further ticks. -/
theorem openLoop_passes (showCurrent : Flt → String) (duty : Flt) (init : Nat)
    (startTime duration : Nat) (pre : List LoopTick) :
    ∀ st : OpenLoopState, (∀ x ∈ pre, x.passes startTime duration) →
      ∃ st1, openLoop showCurrent duty init startTime duration st pre = LoopExit.starved st1
        ∧ (∀ rest, openLoop showCurrent duty init startTime duration st (pre ++ rest)
            = openLoop showCurrent duty init startTime duration st1 rest)
        ∧ st1.samples = st.samples + pre.length
        ∧ st1.result.success = st.result.success
        ∧ st1.result.currentLimitExceeded = st.result.currentLimitExceeded
        ∧ st1.result.hallsWorking = st.result.hallsWorking
        ∧ st1.result.errorMessage = st.result.errorMessage := by
  induction pre with
  | nil =>
      intro st _
      exact ⟨st, rfl, fun _ => rfl, rfl, rfl, rfl, rfl, rfl⟩
  | cons x pre ih =>
      intro st hall
      have hx : x.passes startTime duration := hall x (List.mem_cons_self _ _)
      obtain ⟨cmd, sx, _, hbody, _, hs, h1, h2, h3, h4⟩ :=
        openLoopBody_passes showCurrent duty init startTime duration st x hx
      obtain ⟨st1, hrun, happ, hs1, g1, g2, g3, g4⟩ :=
        ih sx (fun y hy => hall y (List.mem_cons_of_mem _ hy))
      refine ⟨st1, ?_, ?_, ?_, g1.trans h1, g2.trans h2, g3.trans h3, g4.trans h4⟩
      · simp only [openLoop, if_pos hx.1, hbody]
        exact hrun
      · intro rest
        simp only [List.cons_append, openLoop, if_pos hx.1, hbody]
        exact happ rest
      · rw [hs1, hs, List.length_cons]; omega

/-- A pass over a tick whose current is above the limit returns at once. -/
theorem openLoopBody_over (showCurrent : Flt → String) (duty : Flt) (init : Nat)
    (st : OpenLoopState) (t : LoopTick) (hover : Flt.gt t.current CURRENT_LIMIT = true) :
    ∃ st1, openLoopBody showCurrent duty init st t = BodyExit.ret st1
      ∧ st1.log = st.log ++ [HwEvent.readCurrent t.current, HwEvent.motorDisable]
      ∧ st1.samples = st.samples + 1
      ∧ st1.result.success = st.result.success
      ∧ st1.result.currentLimitExceeded = true := by
  cases hb : openLoopBody showCurrent duty init st t with
  | next st1 =>
      by_cases hm : Flt.gt t.current st.result.maxCurrent = true
      · simp [openLoopBody, hm, hover] at hb
      · simp [openLoopBody, hm, hover] at hb
  | ret st1 =>
      refine ⟨st1, rfl, ?_⟩
      by_cases hm : Flt.gt t.current st.result.maxCurrent = true
      · simp [openLoopBody, hm, hover] at hb
        subst hb
        simp
      · simp [openLoopBody, hm, hover] at hb
        subst hb
        simp

/-- A pass over a tick with an admissible current and an invalid hall code
returns at once, with only the error message of the result changed. -/
theorem openLoopBody_invalid (showCurrent : Flt → String) (duty : Flt) (init : Nat)
    (st : OpenLoopState) (t : LoopTick) (hover : Flt.gt t.current CURRENT_LIMIT = false)
    (hbad : ¬ (1 ≤ hallCode t.hall ∧ hallCode t.hall ≤ 6)) :
    ∃ st1, openLoopBody showCurrent duty init st t = BodyExit.ret st1
      ∧ st1.log = st.log
          ++ [HwEvent.readCurrent t.current, HwEvent.readHall t.hall, HwEvent.motorDisable]
      ∧ st1.samples = st.samples + 1
      ∧ st1.result.success = st.result.success
      ∧ st1.result.currentLimitExceeded = st.result.currentLimitExceeded
      ∧ st1.result.hallsWorking = st.result.hallsWorking
      ∧ st1.result.errorMessage
          = "Invalid hall state detected: " ++ toString (hallCode t.hall) := by
  have hcmd := commutation_invalid (hallCode t.hall) duty hbad
  cases hb : openLoopBody showCurrent duty init st t with
  | next st1 =>
      by_cases hm : Flt.gt t.current st.result.maxCurrent = true
      · simp [openLoopBody, hm, hover, hallCode_mod, hcmd] at hb
      · simp [openLoopBody, hm, hover, hallCode_mod, hcmd] at hb
  | ret st1 =>
      refine ⟨st1, rfl, ?_⟩
      by_cases hm : Flt.gt t.current st.result.maxCurrent = true
      · simp [openLoopBody, hm, hover, hallCode_mod, hcmd] at hb
        subst hb
        simp
      · simp [openLoopBody, hm, hover, hallCode_mod, hcmd] at hb
        subst hb
        simp

/-- C2: if the ticks before `t` all pass (guard true, current not above 10.0, valid
hall code), the guard holds at `t` and the current read at `t` is strictly above
10.0 A, then `runOpenLoopTest` returns with currentLimitExceeded = true and
success = false; its events are those of the earlier ticks followed only by the
read of that current and `motor.disable()` (no `setPwm`, no further read), and
the number of current samples taken is the number of earlier ticks plus one,
whatever ticks follow. -/
theorem runOpenLoopTest_current_limit (showCurrent : Flt → String) (dutyCycle : Flt)
    (duration : Nat) (initial : HallLines) (startTime : Nat)
    (pre : List LoopTick) (t : LoopTick) (post : List LoopTick)
    (hpre : ∀ x ∈ pre, x.passes startTime duration)
    (hguard : elapsed t.now startTime < duration)
    (hover : Flt.gt t.current (Flt.fin 10) = true) :
    ∃ r, (runOpenLoopTest showCurrent dutyCycle duration
            { initial := initial, startTime := startTime, ticks := pre ++ t :: post }).result
          = some r
      ∧ r.currentLimitExceeded = true
      ∧ r.success = false
      ∧ (runOpenLoopTest showCurrent dutyCycle duration
            { initial := initial, startTime := startTime, ticks := pre ++ t :: post }).log
          = (runOpenLoopTest showCurrent dutyCycle duration
              { initial := initial, startTime := startTime, ticks := pre }).log
            ++ [HwEvent.readCurrent t.current, HwEvent.motorDisable]
      ∧ (runOpenLoopTest showCurrent dutyCycle duration
            { initial := initial, startTime := startTime, ticks := pre ++ t :: post }).samples
          = pre.length + 1 := by
  obtain ⟨st1, hrun, happ, hs, h1, _, _, _⟩ :=
    openLoop_passes showCurrent (constrain dutyCycle MIN_DUTY MAX_DUTY)
      (hallCode initial % 256) startTime duration pre (openLoopInit initial) hpre
  obtain ⟨st2, hbody, hlog, hs2, g1, g2⟩ :=
    openLoopBody_over showCurrent (constrain dutyCycle MIN_DUTY MAX_DUTY)
      (hallCode initial % 256) st1 t hover
  have hfull : openLoop showCurrent (constrain dutyCycle MIN_DUTY MAX_DUTY)
      (hallCode initial % 256) startTime duration (openLoopInit initial) (pre ++ t :: post)
      = LoopExit.returned st2 := by
    rw [happ]
    simp only [openLoop, if_pos hguard, hbody]
  refine ⟨st2.result, ?_, g2, ?_, ?_, ?_⟩
  · simp only [runOpenLoopTest, hfull]
  · rw [g1, h1]; rfl
  · simp only [runOpenLoopTest, hfull, hrun, hlog]
  · simp only [runOpenLoopTest, hfull, hs2, hs]
    simp [openLoopInit]

/-- C5: if the ticks before `t` all pass, the guard holds at `t`, the current read
at `t` is not above the limit and the hall code read at `t` is not one of 1..6,
then `runOpenLoopTest` returns with success = false, currentLimitExceeded = false,
hallsWorking = false and the message "Invalid hall state detected: " followed by
the decimal code; its events are those of the earlier ticks followed by the two
reads of this pass and `motor.disable()`, without a `setPwm`. -/
theorem runOpenLoopTest_invalid_hall (showCurrent : Flt → String) (dutyCycle : Flt)
    (duration : Nat) (initial : HallLines) (startTime : Nat)
    (pre : List LoopTick) (t : LoopTick) (post : List LoopTick)
    (hpre : ∀ x ∈ pre, x.passes startTime duration)
    (hguard : elapsed t.now startTime < duration)
    (hover : Flt.gt t.current (Flt.fin 10) = false)
    (hbad : ¬ (1 ≤ hallCode t.hall ∧ hallCode t.hall ≤ 6)) :
    ∃ r, (runOpenLoopTest showCurrent dutyCycle duration
            { initial := initial, startTime := startTime, ticks := pre ++ t :: post }).result
          = some r
      ∧ r.success = false
      ∧ r.currentLimitExceeded = false
      ∧ r.hallsWorking = false
      ∧ r.errorMessage = "Invalid hall state detected: " ++ toString (hallCode t.hall)
      ∧ (hallCode t.hall = 0 ∨ hallCode t.hall = 7)
      ∧ (runOpenLoopTest showCurrent dutyCycle duration
            { initial := initial, startTime := startTime, ticks := pre ++ t :: post }).log
          = (runOpenLoopTest showCurrent dutyCycle duration
              { initial := initial, startTime := startTime, ticks := pre }).log
            ++ [HwEvent.readCurrent t.current, HwEvent.readHall t.hall,
                HwEvent.motorDisable] := by
  obtain ⟨st1, hrun, happ, _, h1, h2, h3, _⟩ :=
    openLoop_passes showCurrent (constrain dutyCycle MIN_DUTY MAX_DUTY)
      (hallCode initial % 256) startTime duration pre (openLoopInit initial) hpre
  obtain ⟨st2, hbody, hlog, _, g1, g2, g3, g4⟩ :=
    openLoopBody_invalid showCurrent (constrain dutyCycle MIN_DUTY MAX_DUTY)
      (hallCode initial % 256) st1 t hover hbad
  have hfull : openLoop showCurrent (constrain dutyCycle MIN_DUTY MAX_DUTY)
      (hallCode initial % 256) startTime duration (openLoopInit initial) (pre ++ t :: post)
      = LoopExit.returned st2 := by
    rw [happ]
    simp only [openLoop, if_pos hguard, hbody]
  have hlt := hallCode_lt t.hall
  refine ⟨st2.result, ?_, ?_, ?_, ?_, g4, by omega, ?_⟩
  · simp only [runOpenLoopTest, hfull]
  · rw [g1, h1]; rfl
  · rw [g2, h2]; rfl
  · rw [g3, h3]; rfl
  · simp only [runOpenLoopTest, hfull, hrun, hlog]

/-- A pass of the body only appends events, and every `setPwm` it appends has
each leg at zero or at the duty given to the loop. -/
theorem openLoopBody_log (showCurrent : Flt → String) (duty : Flt) (init : Nat)
    (st : OpenLoopState) (t : LoopTick) :
    ∃ tl, (openLoopBody showCurrent duty init st t).st.log = st.log ++ tl
      ∧ ∀ e ∈ tl, legsZeroOr duty e := by
  by_cases hover : Flt.gt t.current CURRENT_LIMIT = true
  · refine ⟨[HwEvent.readCurrent t.current, HwEvent.motorDisable], ?_, ?_⟩
    · by_cases hm : Flt.gt t.current st.result.maxCurrent = true
      · simp [openLoopBody, hm, hover, BodyExit.st]
      · simp [openLoopBody, hm, hover, BodyExit.st]
    · intro e he
      simp only [List.mem_cons, List.mem_singleton, List.not_mem_nil, or_false] at he
      rcases he with rfl | rfl <;> simp [legsZeroOr]
  · cases hc : commutation (hallCode t.hall) duty with
    | none =>
        refine ⟨[HwEvent.readCurrent t.current, HwEvent.readHall t.hall,
          HwEvent.motorDisable], ?_, ?_⟩
        · by_cases hm : Flt.gt t.current st.result.maxCurrent = true
          · simp [openLoopBody, hm, hover, hallCode_mod, hc, BodyExit.st]
          · simp [openLoopBody, hm, hover, hallCode_mod, hc, BodyExit.st]
        · intro e he
          simp only [List.mem_cons, List.mem_singleton, List.not_mem_nil, or_false] at he
          rcases he with rfl | rfl | rfl <;> simp [legsZeroOr]
    | some cmd =>
        refine ⟨[HwEvent.readCurrent t.current, HwEvent.readHall t.hall, cmd], ?_, ?_⟩
        · by_cases hm : Flt.gt t.current st.result.maxCurrent = true
          · simp [openLoopBody, hm, hover, hallCode_mod, hc, BodyExit.st]
          · simp [openLoopBody, hm, hover, hallCode_mod, hc, BodyExit.st]
        · intro e he
          simp only [List.mem_cons, List.mem_singleton, List.not_mem_nil, or_false] at he
          rcases he with rfl | rfl | rfl
          · simp [legsZeroOr]
          · simp [legsZeroOr]
          · exact commutation_legs _ _ _ hc

/-- The loop only appends events, and every `setPwm` it appends has each leg at
zero or at the duty given to the loop. -/
theorem openLoop_log (showCurrent : Flt → String) (duty : Flt) (init : Nat)
    (startTime duration : Nat) (ticks : List LoopTick) :
    ∀ st : OpenLoopState,
      ∃ tl, (openLoop showCurrent duty init startTime duration st ticks).st.log = st.log ++ tl
        ∧ ∀ e ∈ tl, legsZeroOr duty e := by
  induction ticks with
  | nil => intro st; exact ⟨[], by simp [openLoop, LoopExit.st], by simp⟩
  | cons t rest ih =>
      intro st
      by_cases hg : elapsed t.now startTime < duration
      · obtain ⟨tl, hlog, hlegs⟩ := openLoopBody_log showCurrent duty init st t
        cases hb : openLoopBody showCurrent duty init st t with
        | next st1 =>
            rw [hb] at hlog
            obtain ⟨tl2, hlog2, hlegs2⟩ := ih st1
            refine ⟨tl ++ tl2, ?_, ?_⟩
            · simp only [openLoop, if_pos hg, hb]
              rw [hlog2]
              simp only [BodyExit.st] at hlog
              rw [hlog, List.append_assoc]
            · intro e he
              rcases List.mem_append.mp he with he | he
              · exact hlegs e he
              · exact hlegs2 e he
        | ret st1 =>
            rw [hb] at hlog
            refine ⟨tl, ?_, hlegs⟩
            simp only [openLoop, if_pos hg, hb, LoopExit.st]
            exact hlog
      · exact ⟨[], by simp [openLoop, hg, LoopExit.st], by simp⟩

/-- The events of a call are the two initial events, the events of the loop and,
after a normal end of the loop, the final `motor.disable()`. -/
theorem runOpenLoopTest_log (showCurrent : Flt → String) (dutyCycle : Flt) (duration : Nat)
    (env : OpenLoopEnv) :
    ∃ tl, (runOpenLoopTest showCurrent dutyCycle duration env).log
        = (openLoop showCurrent (constrain dutyCycle MIN_DUTY MAX_DUTY)
            (hallCode env.initial % 256) env.startTime duration
            (openLoopInit env.initial) env.ticks).st.log ++ tl
      ∧ (tl = [] ∨ tl = [HwEvent.motorDisable]) := by
  simp only [runOpenLoopTest]
  cases openLoop showCurrent (constrain dutyCycle MIN_DUTY MAX_DUTY)
      (hallCode env.initial % 256) env.startTime duration
      (openLoopInit env.initial) env.ticks with
  | timedOut st => exact ⟨[HwEvent.motorDisable], by simp [openLoopFinish, LoopExit.st], Or.inr rfl⟩
  | returned st => exact ⟨[], by simp [LoopExit.st], Or.inl rfl⟩
  | starved st => exact ⟨[], by simp [LoopExit.st], Or.inl rfl⟩

theorem tickOk_passes : tickOk.passes 0 2000 := by
  refine ⟨by decide, ?_, by decide, by decide⟩
  simp only [tickOk, CURRENT_LIMIT, Flt.gt, Flt.lt]; norm_num

theorem tickSix_passes : tickSix.passes 0 2000 := by
  refine ⟨by decide, ?_, by decide, by decide⟩
  simp only [tickSix, CURRENT_LIMIT, Flt.gt, Flt.lt]; norm_num

theorem passes_singleton : ∀ x ∈ [tickOk], x.passes 0 2000 := by
  intro x hx
  rw [List.mem_singleton.mp hx]
  exact tickOk_passes

/-- C2 at a concrete input: a tick at 2 A, then a tick at 12 A, then one more
tick; the call returns at the second tick after two samples. -/
theorem runOpenLoopTest_current_limit_witness :
    (∀ x ∈ [tickOk], x.passes 0 2000)
    ∧ elapsed tickOver.now 0 < 2000
    ∧ Flt.gt tickOver.current (Flt.fin 10) = true
    ∧ ∃ r, (runOpenLoopTest (fun _ => "12.00") (Flt.fin (3 / 10)) 2000
              { initial := { a := false, b := false, c := true }, startTime := 0,
                ticks := [tickOk] ++ tickOver :: [tickOk] }).result = some r
        ∧ r.currentLimitExceeded = true
        ∧ r.success = false
        ∧ (runOpenLoopTest (fun _ => "12.00") (Flt.fin (3 / 10)) 2000
              { initial := { a := false, b := false, c := true }, startTime := 0,
                ticks := [tickOk] ++ tickOver :: [tickOk] }).samples = 2 :=
  have hover : Flt.gt tickOver.current (Flt.fin 10) = true := by
    simp only [tickOver, Flt.gt, Flt.lt]; norm_num
  ⟨passes_singleton, by decide, hover,
    match runOpenLoopTest_current_limit (fun _ => "12.00") (Flt.fin (3 / 10)) 2000
      { a := false, b := false, c := true } 0 [tickOk] tickOver [tickOk]
      passes_singleton (by decide) hover with
    | ⟨r, hr, h1, h2, _, h4⟩ => ⟨r, hr, h1, h2, h4⟩⟩

/-- C4: if the ticks before `t` all pass and `t` passes too (so its hall code h is
one of 1..6), the events of the call continue, after those of the earlier ticks,
with the two reads of this pass and one `setPwm`, which is (c,0,0) when h is 1 or
5, (0,c,0) when h is 2 or 3 and (0,0,c) when h is 4 or 6, where c is the clamped
duty. -/
theorem runOpenLoopTest_commutation (showCurrent : Flt → String) (dutyCycle : Flt)
    (duration : Nat) (initial : HallLines) (startTime : Nat)
    (pre : List LoopTick) (t : LoopTick) (post : List LoopTick)
    (hpre : ∀ x ∈ pre, x.passes startTime duration)
    (ht : t.passes startTime duration) :
    ∃ ua ub uc tl,
      (runOpenLoopTest showCurrent dutyCycle duration
          { initial := initial, startTime := startTime, ticks := pre ++ t :: post }).log
        = (runOpenLoopTest showCurrent dutyCycle duration
            { initial := initial, startTime := startTime, ticks := pre }).log
          ++ [HwEvent.readCurrent t.current, HwEvent.readHall t.hall,
              HwEvent.setPwm ua ub uc] ++ tl
      ∧ ((hallCode t.hall = 1 ∨ hallCode t.hall = 5) →
          ua = constrain dutyCycle MIN_DUTY MAX_DUTY ∧ ub = Flt.fin 0 ∧ uc = Flt.fin 0)
      ∧ ((hallCode t.hall = 2 ∨ hallCode t.hall = 3) →
          ua = Flt.fin 0 ∧ ub = constrain dutyCycle MIN_DUTY MAX_DUTY ∧ uc = Flt.fin 0)
      ∧ ((hallCode t.hall = 4 ∨ hallCode t.hall = 6) →
          ua = Flt.fin 0 ∧ ub = Flt.fin 0 ∧ uc = constrain dutyCycle MIN_DUTY MAX_DUTY) := by
  obtain ⟨st1, hrun, happ, _⟩ :=
    openLoop_passes showCurrent (constrain dutyCycle MIN_DUTY MAX_DUTY)
      (hallCode initial % 256) startTime duration pre (openLoopInit initial) hpre
  obtain ⟨cmd, st2, hcmd, hbody, hlog, _⟩ :=
    openLoopBody_passes showCurrent (constrain dutyCycle MIN_DUTY MAX_DUTY)
      (hallCode initial % 256) startTime duration st1 t ht
  obtain ⟨ua, ub, uc, hcmd2, htab⟩ := commutation_table (hallCode t.hall)
    (constrain dutyCycle MIN_DUTY MAX_DUTY) ht.2.2.1 ht.2.2.2
  rw [hcmd2] at hcmd
  cases hcmd
  obtain ⟨tl, htl, _⟩ := openLoop_log showCurrent (constrain dutyCycle MIN_DUTY MAX_DUTY)
    (hallCode initial % 256) startTime duration post st2
  obtain ⟨tl2, hfin, _⟩ := runOpenLoopTest_log showCurrent dutyCycle duration
    { initial := initial, startTime := startTime, ticks := pre ++ t :: post }
  refine ⟨ua, ub, uc, tl ++ tl2, ?_, htab⟩
  rw [hfin]
  simp only [happ, openLoop, if_pos ht.1, hbody, htl, hlog]
  simp only [runOpenLoopTest, hrun, List.append_assoc]

/-- C4 at a concrete input: a tick with hall code 1 followed by a tick with hall
code 6, for which the drive command is (0, 0, c). -/
theorem runOpenLoopTest_commutation_witness :
    (∀ x ∈ [tickOk], x.passes 0 2000)
    ∧ tickSix.passes 0 2000
    ∧ hallCode tickSix.hall = 6
    ∧ ∃ ua ub uc tl,
        (runOpenLoopTest (fun _ => "") (Flt.fin (3 / 10)) 2000
            { initial := { a := false, b := false, c := true }, startTime := 0,
              ticks := [tickOk] ++ tickSix :: [] }).log
          = (runOpenLoopTest (fun _ => "") (Flt.fin (3 / 10)) 2000
              { initial := { a := false, b := false, c := true }, startTime := 0,
                ticks := [tickOk] }).log
            ++ [HwEvent.readCurrent tickSix.current, HwEvent.readHall tickSix.hall,
                HwEvent.setPwm ua ub uc] ++ tl
        ∧ ua = Flt.fin 0 ∧ ub = Flt.fin 0
        ∧ uc = constrain (Flt.fin (3 / 10)) MIN_DUTY MAX_DUTY :=
  ⟨passes_singleton, tickSix_passes, by decide,
    match runOpenLoopTest_commutation (fun _ => "") (Flt.fin (3 / 10)) 2000
      { a := false, b := false, c := true } 0 [tickOk] tickSix []
      passes_singleton tickSix_passes with
    | ⟨ua, ub, uc, tl, hlog, _, _, h46⟩ =>
        ⟨ua, ub, uc, tl, hlog, h46 (Or.inr (by decide))⟩⟩

/-- C5 at a concrete input: a tick with hall code 1 followed by a tick with hall
code 7; the call returns there with the message ending in 7. -/
theorem runOpenLoopTest_invalid_hall_witness :
    (∀ x ∈ [tickOk], x.passes 0 2000)
    ∧ elapsed tickBadHall.now 0 < 2000
    ∧ Flt.gt tickBadHall.current (Flt.fin 10) = false
    ∧ ¬ (1 ≤ hallCode tickBadHall.hall ∧ hallCode tickBadHall.hall ≤ 6)
    ∧ ∃ r, (runOpenLoopTest (fun _ => "") (Flt.fin (3 / 10)) 2000
              { initial := { a := false, b := false, c := true }, startTime := 0,
                ticks := [tickOk] ++ tickBadHall :: [tickOk] }).result = some r
        ∧ r.success = false
        ∧ r.currentLimitExceeded = false
        ∧ r.hallsWorking = false
        ∧ r.errorMessage = "Invalid hall state detected: 7" :=
  have hover : Flt.gt tickBadHall.current (Flt.fin 10) = false := by
    simp only [tickBadHall, Flt.gt, Flt.lt]; norm_num
  ⟨passes_singleton, by decide, hover, by decide,
    match runOpenLoopTest_invalid_hall (fun _ => "") (Flt.fin (3 / 10)) 2000
      { a := false, b := false, c := true } 0 [tickOk] tickBadHall [tickOk]
      passes_singleton (by decide) hover (by decide) with
    | ⟨r, hr, h1, h2, h3, h4, _, _⟩ => ⟨r, hr, h1, h2, h3, h4.trans (by decide)⟩⟩

/-- A pass of the body takes exactly one current sample and leaves `success` as
it was. -/
theorem openLoopBody_samples (showCurrent : Flt → String) (duty : Flt) (init : Nat)
    (st : OpenLoopState) (t : LoopTick) :
    (openLoopBody showCurrent duty init st t).st.samples = st.samples + 1
    ∧ (openLoopBody showCurrent duty init st t).st.result.success = st.result.success := by
  by_cases hm : Flt.gt t.current st.result.maxCurrent = true <;>
  by_cases hover : Flt.gt t.current CURRENT_LIMIT = true <;>
  cases hc : commutation (hallCode t.hall) duty <;>
  simp [openLoopBody, hm, hover, hallCode_mod, hc, BodyExit.st]

theorem openLoop_samples (showCurrent : Flt → String) (duty : Flt) (init : Nat)
    (startTime duration : Nat) (ticks : List LoopTick) :
    ∀ st : OpenLoopState,
      st.samples ≤ (openLoop showCurrent duty init startTime duration st ticks).st.samples
      ∧ (openLoop showCurrent duty init startTime duration st ticks).st.result.success
          = st.result.success := by
  induction ticks with
  | nil => intro st; simp [openLoop, LoopExit.st]
  | cons t rest ih =>
      intro st
      by_cases hg : elapsed t.now startTime < duration
      · obtain ⟨hs, hok⟩ := openLoopBody_samples showCurrent duty init st t
        cases hb : openLoopBody showCurrent duty init st t with
        | next st1 =>
            rw [hb] at hs hok
            simp only [BodyExit.st] at hs hok
            obtain ⟨h1, h2⟩ := ih st1
            simp only [openLoop, if_pos hg, hb]
            exact ⟨by omega, h2.trans hok⟩
        | ret st1 =>
            rw [hb] at hs hok
            simp only [BodyExit.st] at hs hok
            simp only [openLoop, if_pos hg, hb, LoopExit.st]
            exact ⟨by omega, hok⟩
      · simp [openLoop, hg, LoopExit.st]

theorem runOpenLoopTest_samples (showCurrent : Flt → String) (dutyCycle : Flt)
    (duration : Nat) (env : OpenLoopEnv) :
    (runOpenLoopTest showCurrent dutyCycle duration env).samples
      = (openLoop showCurrent (constrain dutyCycle MIN_DUTY MAX_DUTY)
          (hallCode env.initial % 256) env.startTime duration
          (openLoopInit env.initial) env.ticks).st.samples := by
  simp only [runOpenLoopTest]
  cases openLoop showCurrent (constrain dutyCycle MIN_DUTY MAX_DUTY)
      (hallCode env.initial % 256) env.startTime duration
      (openLoopInit env.initial) env.ticks <;> simp [openLoopFinish, LoopExit.st]

/-- C18, as stated, fails: with a duration of 50 ms and a clock that reads 0 at
the start and 100 at the first evaluation of the loop guard (after the 100 ms
settling delay), the call completes normally with success = true after zero
samples, and avgCurrent is 0.0 / 0, a NaN. -/
theorem runOpenLoopTest_zero_samples :
    0 < 50 ∧ 0 + 100 ≤ 100
    ∧ (runOpenLoopTest (fun _ => "") (Flt.fin (3 / 10)) 50
        { initial := { a := false, b := false, c := true }, startTime := 0,
          ticks := [tickOk] }).samples = 0
    ∧ (runOpenLoopTest (fun _ => "") (Flt.fin (3 / 10)) 50
        { initial := { a := false, b := false, c := true }, startTime := 0,
          ticks := [tickOk] }).result
      = some { success := true, maxCurrent := Flt.fin 0, avgCurrent := Flt.nan,
               currentLimitExceeded := false, hallsWorking := false,
               errorMessage := "Not all hall sensors changed state. Hall A stuck. Hall B stuck. Hall C stuck. " } := by
  refine ⟨by decide, by decide, ?_, ?_⟩
  · simp [runOpenLoopTest, openLoop, tickOk, elapsed, ULONG_MOD, openLoopFinish, openLoopInit]
  · simp [runOpenLoopTest, openLoop, tickOk, elapsed, ULONG_MOD, openLoopFinish, openLoopInit,
      Flt.div, Flt.ofInt]

/-- A call that returns with success = true left the loop through its guard. -/
theorem runOpenLoopTest_success (showCurrent : Flt → String) (dutyCycle : Flt)
    (duration : Nat) (env : OpenLoopEnv) (r : OpenLoopTestResult)
    (hr : (runOpenLoopTest showCurrent dutyCycle duration env).result = some r)
    (hs : r.success = true) :
    ∃ st, openLoop showCurrent (constrain dutyCycle MIN_DUTY MAX_DUTY)
        (hallCode env.initial % 256) env.startTime duration
        (openLoopInit env.initial) env.ticks = LoopExit.timedOut st
      ∧ r.avgCurrent = Flt.div st.currentSum (Flt.ofInt st.samples) := by
  have hkeep := (openLoop_samples showCurrent (constrain dutyCycle MIN_DUTY MAX_DUTY)
    (hallCode env.initial % 256) env.startTime duration env.ticks (openLoopInit env.initial)).2
  cases hx : openLoop showCurrent (constrain dutyCycle MIN_DUTY MAX_DUTY)
      (hallCode env.initial % 256) env.startTime duration
      (openLoopInit env.initial) env.ticks with
  | timedOut st =>
      refine ⟨st, rfl, ?_⟩
      simp only [runOpenLoopTest, hx, openLoopFinish] at hr
      injection hr with hr
      subst hr
      split <;> rfl
  | returned st =>
      exfalso
      rw [hx] at hkeep
      simp only [runOpenLoopTest, hx] at hr
      injection hr with hr
      subst hr
      simp only [LoopExit.st] at hkeep
      rw [hkeep] at hs
      simp [openLoopInit] at hs
  | starved st =>
      simp [runOpenLoopTest, hx] at hr

/-- C18, amended: if the loop guard of `runOpenLoopTest` holds at its first
evaluation (the elapsed time since `startTime`, which already contains the
100 ms settling delay, is below `duration`) and the call completes normally, then
at least one current sample has been read and avgCurrent is a quotient by that
positive sample count. -/
theorem runOpenLoopTest_samples_pos (showCurrent : Flt → String) (dutyCycle : Flt)
    (duration : Nat) (initial : HallLines) (startTime : Nat)
    (t : LoopTick) (rest : List LoopTick) (r : OpenLoopTestResult)
    (hfirst : elapsed t.now startTime < duration)
    (hr : (runOpenLoopTest showCurrent dutyCycle duration
            { initial := initial, startTime := startTime, ticks := t :: rest }).result = some r)
    (hs : r.success = true) :
    1 ≤ (runOpenLoopTest showCurrent dutyCycle duration
          { initial := initial, startTime := startTime, ticks := t :: rest }).samples
    ∧ ∃ currentSum, r.avgCurrent = Flt.div currentSum
        (Flt.ofInt (runOpenLoopTest showCurrent dutyCycle duration
          { initial := initial, startTime := startTime, ticks := t :: rest }).samples) := by
  obtain ⟨st, hx, havg⟩ := runOpenLoopTest_success showCurrent dutyCycle duration
    { initial := initial, startTime := startTime, ticks := t :: rest } r hr hs
  have hsam := runOpenLoopTest_samples showCurrent dutyCycle duration
    { initial := initial, startTime := startTime, ticks := t :: rest }
  rw [hx] at hsam
  simp only [LoopExit.st] at hsam
  refine ⟨?_, st.currentSum, by rw [hsam]; exact havg⟩
  rw [hsam]
  obtain ⟨hb1, _⟩ := openLoopBody_samples showCurrent (constrain dutyCycle MIN_DUTY MAX_DUTY)
    (hallCode initial % 256) (openLoopInit initial) t
  simp only [openLoop, if_pos hfirst] at hx
  cases hb : openLoopBody showCurrent (constrain dutyCycle MIN_DUTY MAX_DUTY)
      (hallCode initial % 256) (openLoopInit initial) t with
  | next st1 =>
      rw [hb] at hb1 hx
      simp only [BodyExit.st] at hb1
      have := (openLoop_samples showCurrent (constrain dutyCycle MIN_DUTY MAX_DUTY)
        (hallCode initial % 256) startTime duration rest st1).1
      simp only [] at hx
      rw [hx] at this
      simp only [LoopExit.st] at this
      omega
  | ret st1 =>
      rw [hb] at hx
      simp at hx

theorem oneSample_result :
    (runOpenLoopTest (fun _ => "") (Flt.fin (3 / 10)) 110
        { initial := { a := false, b := false, c := true }, startTime := 0,
          ticks := tickOk :: [tickSix] }).result
      = some { success := true, maxCurrent := Flt.fin 2, avgCurrent := Flt.fin 2,
               currentLimitExceeded := false, hallsWorking := false,
               errorMessage := "Not all hall sensors changed state. Hall A stuck. Hall B stuck. Hall C stuck. " } := by
  simp [runOpenLoopTest, openLoop, openLoopBody, tickOk, tickSix, elapsed, ULONG_MOD,
    openLoopFinish, openLoopInit, Flt.div, Flt.add, Flt.ofInt, Flt.gt, Flt.lt, CURRENT_LIMIT,
    hallCode, commutation]
  norm_num
  decide

/-- C18, amended, at a concrete input: a duration of 110 ms, the guard holding at
100 ms and failing at 111 ms; the call completes normally after one sample. -/
theorem runOpenLoopTest_samples_pos_witness :
    elapsed tickOk.now 0 < 110
    ∧ 1 ≤ (runOpenLoopTest (fun _ => "") (Flt.fin (3 / 10)) 110
        { initial := { a := false, b := false, c := true }, startTime := 0,
          ticks := tickOk :: [tickSix] }).samples :=
  ⟨by decide,
    (runOpenLoopTest_samples_pos (fun _ => "") (Flt.fin (3 / 10)) 110
      { a := false, b := false, c := true } 0 tickOk [tickSix] _
      (by decide) oneSample_result rfl).1⟩

/-! ## Theorems: pole pair range -/

theorem countTransitions_le (startTime : Nat) (polls : List PollTick) :
    ∀ (hallState1 transitions : Nat) (log : List HwEvent) (t : Nat),
      transitions < 6 →
      (countTransitions startTime hallState1 transitions log polls).1 = some t → t ≤ 6 := by
  induction polls with
  | nil => intro _ _ _ t _ h; simp [countTransitions] at h
  | cons p rest ih =>
      intro hallState1 transitions log t hlt h
      by_cases hg : elapsed p.now startTime < 5000
      · simp only [countTransitions, if_pos hg] at h
        split_ifs at h with h1 h2 h3
        · simp at h; omega
        · exact ih _ _ _ t (by omega) h
        · simp at h; omega
        · exact ih _ _ _ t (by omega) h
      · simp [countTransitions, hg] at h
        omega

/-- C17: in every call of `detectPolePairs` the final count of transitions is at
most 6 and a returned value is 0, 1 or 7; the call returns whenever the timeout
expires within the given ticks. -/
theorem detectPolePairs_range (env : PolePairEnv) :
    (∀ t, (detectPolePairs env).transitions = some t → t ≤ 6)
    ∧ (∀ r, (detectPolePairs env).result = some r → r = 0 ∨ r = 1 ∨ r = 7)
    ∧ ((∃ p ∈ env.polls, ¬ elapsed p.now env.startTime < 5000) →
        ∃ r, (detectPolePairs env).result = some r ∧ (r = 0 ∨ r = 1 ∨ r = 7)) := by
  have hle : ∀ t, (countTransitions env.startTime (hallCode env.initial) 0
      [HwEvent.motorMove (Flt.fin 1), HwEvent.readHall env.initial] env.polls).1 = some t →
      t ≤ 6 := fun t ht =>
    countTransitions_le env.startTime env.polls _ 0 _ t (by decide) ht
  have hres : ∀ r, (detectPolePairs env).result = some r → r = 0 ∨ r = 1 ∨ r = 7 := by
    intro r hr
    unfold detectPolePairs at hr
    split at hr
    · simp at hr
    · rename_i t log heq
      have ht : t ≤ 6 := hle t (by rw [heq])
      simp only [Option.some.injEq] at hr
      subst hr
      unfold polePairsOf
      interval_cases t <;> simp
  refine ⟨?_, hres, ?_⟩
  · intro t ht
    unfold detectPolePairs at ht
    split at ht
    · simp at ht
    · rename_i t2 log heq
      simp only [Option.some.injEq] at ht
      subst ht
      exact hle _ (by rw [heq])
  · intro h
    obtain ⟨t, ht⟩ := countTransitions_returns env.startTime env.polls (hallCode env.initial) 0
      [HwEvent.motorMove (Flt.fin 1), HwEvent.readHall env.initial] h
    have hpair : countTransitions env.startTime (hallCode env.initial) 0
        [HwEvent.motorMove (Flt.fin 1), HwEvent.readHall env.initial] env.polls
        = (some t, (countTransitions env.startTime (hallCode env.initial) 0
            [HwEvent.motorMove (Flt.fin 1), HwEvent.readHall env.initial] env.polls).2) := by
      rw [← ht]
    have hr : (detectPolePairs env).result = some (polePairsOf t) := by
      simp only [detectPolePairs]; rw [hpair]
    exact ⟨_, hr, hres _ hr⟩

/-- C17 at a concrete input: six transitions end the loop with a count of 6 and a
returned value of 1. -/
theorem detectPolePairs_range_witness :
    (∃ p ∈ sixTransitions.polls, ¬ elapsed p.now sixTransitions.startTime < 5000)
    ∧ (detectPolePairs sixTransitions).transitions = some 6
    ∧ (detectPolePairs sixTransitions).result = some 1
    ∧ ∃ r, (detectPolePairs sixTransitions).result = some r ∧ (r = 0 ∨ r = 1 ∨ r = 7) :=
  have hex : ∃ p ∈ sixTransitions.polls,
      ¬ elapsed p.now sixTransitions.startTime < 5000 :=
    ⟨{ now := 5000, hall := { a := false, b := false, c := true } },
      by simp [sixTransitions], by decide⟩
  ⟨hex, by decide, by decide, (detectPolePairs_range sixTransitions).2.2 hex⟩

/-! ## Theorems: open-loop test, normal completion -/

theorem hallBits_normal (h i : HallLines) :
    ((hallCode h >>> 2 != hallCode i >>> 2) = (h.a != i.a))
    ∧ ((hallCode h >>> 1 % 2 != hallCode i >>> 1 % 2) = (h.b != i.b))
    ∧ ((hallCode h % 2 != hallCode i % 2) = (h.c != i.c)) := by
  rcases h with ⟨a, b, c⟩
  rcases i with ⟨a2, b2, c2⟩
  cases a <;> cases b <;> cases c <;> cases a2 <;> cases b2 <;> cases c2 <;> decide

/-- A pass of the body that gets past the current check updates each changed flag
with the comparison of that line against its initial level. -/
theorem openLoopBody_flags (showCurrent : Flt → String) (duty : Flt) (initial : HallLines)
    (st : OpenLoopState) (t : LoopTick) (hover : Flt.gt t.current CURRENT_LIMIT = false) :
    (openLoopBody showCurrent duty (hallCode initial % 256) st t).st.hallAChanged
        = (st.hallAChanged || (t.hall.a != initial.a))
    ∧ (openLoopBody showCurrent duty (hallCode initial % 256) st t).st.hallBChanged
        = (st.hallBChanged || (t.hall.b != initial.b))
    ∧ (openLoopBody showCurrent duty (hallCode initial % 256) st t).st.hallCChanged
        = (st.hallCChanged || (t.hall.c != initial.c)) := by
  obtain ⟨ha, hb, hc⟩ := hallBits_normal t.hall initial
  by_cases hm : Flt.gt t.current st.result.maxCurrent = true <;>
  cases hcmd : commutation (hallCode t.hall) duty <;>
  simp [openLoopBody, hm, hover, hallCode_mod, hcmd, BodyExit.st, ha, hb, hc]

theorem openLoop_flags (showCurrent : Flt → String) (duty : Flt) (initial : HallLines)
    (startTime duration : Nat) (pre : List LoopTick) :
    ∀ st : OpenLoopState, (∀ x ∈ pre, x.passes startTime duration) →
      (openLoop showCurrent duty (hallCode initial % 256) startTime duration st pre).st.hallAChanged
          = (st.hallAChanged || lineChanged HallLines.a initial (pre.map LoopTick.hall))
      ∧ (openLoop showCurrent duty (hallCode initial % 256) startTime duration st pre).st.hallBChanged
          = (st.hallBChanged || lineChanged HallLines.b initial (pre.map LoopTick.hall))
      ∧ (openLoop showCurrent duty (hallCode initial % 256) startTime duration st pre).st.hallCChanged
          = (st.hallCChanged || lineChanged HallLines.c initial (pre.map LoopTick.hall)) := by
  induction pre with
  | nil => intro st _; simp [openLoop, LoopExit.st, lineChanged]
  | cons x pre ih =>
      intro st hall
      have hx : x.passes startTime duration := hall x (List.mem_cons_self _ _)
      obtain ⟨cmd, sx, _, hbody, _⟩ :=
        openLoopBody_passes showCurrent duty (hallCode initial % 256) startTime duration st x hx
      obtain ⟨fa, fb, fc⟩ := openLoopBody_flags showCurrent duty initial st x hx.2.1
      rw [hbody] at fa fb fc
      simp only [BodyExit.st] at fa fb fc
      obtain ⟨ga, gb, gc⟩ := ih sx (fun y hy => hall y (List.mem_cons_of_mem _ hy))
      simp only [openLoop, if_pos hx.1, hbody]
      rw [ga, gb, gc, fa, fb, fc]
      simp [lineChanged, Bool.or_assoc]

/-- C13: if the ticks before `t` all pass (no over-current sample, no invalid hall
code) and the guard fails at `t`, the call returns with success = true and
currentLimitExceeded = false; hallsWorking is true exactly when each of the three
hall lines differed from its initial level in some pass; the message is empty
when hallsWorking is true and otherwise "Not all hall sensors changed state. "
followed by "Hall A stuck. ", "Hall B stuck. ", "Hall C stuck. " for the lines that
never changed, in this order. -/
theorem runOpenLoopTest_completes (showCurrent : Flt → String) (dutyCycle : Flt)
    (duration : Nat) (initial : HallLines) (startTime : Nat)
    (pre : List LoopTick) (t : LoopTick) (post : List LoopTick)
    (hpre : ∀ x ∈ pre, x.passes startTime duration)
    (hend : ¬ elapsed t.now startTime < duration) :
    ∃ r, (runOpenLoopTest showCurrent dutyCycle duration
            { initial := initial, startTime := startTime, ticks := pre ++ t :: post }).result
          = some r
      ∧ r.success = true
      ∧ r.currentLimitExceeded = false
      ∧ r.hallsWorking
          = (lineChanged HallLines.a initial (pre.map LoopTick.hall)
              && lineChanged HallLines.b initial (pre.map LoopTick.hall)
              && lineChanged HallLines.c initial (pre.map LoopTick.hall))
      ∧ (r.hallsWorking = true → r.errorMessage = "")
      ∧ (r.hallsWorking = false → r.errorMessage
          = "Not all hall sensors changed state. "
            ++ (if lineChanged HallLines.a initial (pre.map LoopTick.hall) then ""
                else "Hall A stuck. ")
            ++ (if lineChanged HallLines.b initial (pre.map LoopTick.hall) then ""
                else "Hall B stuck. ")
            ++ (if lineChanged HallLines.c initial (pre.map LoopTick.hall) then ""
                else "Hall C stuck. ")) := by
  obtain ⟨st1, hrun, happ, _, _, h2, _, h4⟩ :=
    openLoop_passes showCurrent (constrain dutyCycle MIN_DUTY MAX_DUTY)
      (hallCode initial % 256) startTime duration pre (openLoopInit initial) hpre
  obtain ⟨fa, fb, fc⟩ := openLoop_flags showCurrent (constrain dutyCycle MIN_DUTY MAX_DUTY)
    initial startTime duration pre (openLoopInit initial) hpre
  rw [hrun] at fa fb fc
  simp only [LoopExit.st, openLoopInit, Bool.false_or] at fa fb fc
  have hfull : openLoop showCurrent (constrain dutyCycle MIN_DUTY MAX_DUTY)
      (hallCode initial % 256) startTime duration (openLoopInit initial) (pre ++ t :: post)
      = LoopExit.timedOut st1 := by
    rw [happ]
    simp only [openLoop, if_neg hend]
  have hmsg : st1.result.errorMessage = "" := by rw [h4]; rfl
  have hlim : st1.result.currentLimitExceeded = false := by rw [h2]; rfl
  generalize lineChanged HallLines.a initial (pre.map LoopTick.hall) = a at fa ⊢
  generalize lineChanged HallLines.b initial (pre.map LoopTick.hall) = b at fb ⊢
  generalize lineChanged HallLines.c initial (pre.map LoopTick.hall) = c at fc ⊢
  simp only [runOpenLoopTest, hfull, openLoopFinish, fa, fb, fc]
  cases a <;> cases b <;> cases c <;>
    simp [hmsg, hlim]

theorem passes_pair : ∀ x ∈ [tickOk, tickSix], x.passes 0 2000 := by
  intro x hx
  simp only [List.mem_cons, List.mem_singleton, List.not_mem_nil, or_false] at hx
  rcases hx with rfl | rfl
  · exact tickOk_passes
  · exact tickSix_passes

/-- C13 at a concrete input: passes at hall codes 1 and 6 from an initial code of
1 change all three lines; the guard fails at 2000 ms and the call returns with
success = true, hallsWorking = true and an empty message. -/
theorem runOpenLoopTest_completes_witness :
    (∀ x ∈ [tickOk, tickSix], x.passes 0 2000)
    ∧ ¬ elapsed tickLate.now 0 < 2000
    ∧ ∃ r, (runOpenLoopTest (fun _ => "") (Flt.fin (3 / 10)) 2000
              { initial := { a := false, b := false, c := true }, startTime := 0,
                ticks := [tickOk, tickSix] ++ tickLate :: [] }).result = some r
        ∧ r.success = true
        ∧ r.currentLimitExceeded = false
        ∧ r.hallsWorking = true
        ∧ r.errorMessage = "" :=
  ⟨passes_pair, by decide,
    match runOpenLoopTest_completes (fun _ => "") (Flt.fin (3 / 10)) 2000
      { a := false, b := false, c := true } 0 [tickOk, tickSix] tickLate []
      passes_pair (by decide) with
    | ⟨r, hr, h1, h2, h3, h4, _⟩ =>
        have hw : r.hallsWorking = true := h3.trans (by decide)
        ⟨r, hr, h1, h2, hw, h4 hw⟩⟩

/-! ## Theorems: hall verification -/

/-- The loop of `verifyHallSensors` over ticks that are all within the window,
from flags that already record the earlier reads `seen`. -/
theorem verifyLoop_window (startTime : Nat) (initial : HallLines) (pre : List PollTick) :
    ∀ (a b c : Bool) (log : List HwEvent) (rest : List PollTick),
      (∀ x ∈ pre, elapsed x.now startTime < 1000) →
      (a && b && c) = false →
      ((a || lineChanged HallLines.a initial (pre.map PollTick.hall))
        && (b || lineChanged HallLines.b initial (pre.map PollTick.hall))
        && (c || lineChanged HallLines.c initial (pre.map PollTick.hall))) = false →
      verifyLoop startTime initial a b c log (pre ++ rest)
        = verifyLoop startTime initial
            (a || lineChanged HallLines.a initial (pre.map PollTick.hall))
            (b || lineChanged HallLines.b initial (pre.map PollTick.hall))
            (c || lineChanged HallLines.c initial (pre.map PollTick.hall))
            (log ++ pre.map (fun x => HwEvent.readHall x.hall)) rest := by
  induction pre with
  | nil => intro a b c log rest _ _ _; simp [lineChanged]
  | cons x pre ih =>
      intro a b c log rest hwin h0 hnot
      have hx : elapsed x.now startTime < 1000 := hwin x (List.mem_cons_self _ _)
      have hstep : ((a || (x.hall.a != initial.a)) && (b || (x.hall.b != initial.b))
          && (c || (x.hall.c != initial.c))) = false := by
        revert hnot
        simp only [lineChanged, List.map_cons, List.any_cons]
        cases a <;> cases b <;> cases c <;>
          cases (x.hall.a != initial.a) <;> cases (x.hall.b != initial.b) <;>
          cases (x.hall.c != initial.c) <;> simp
      have hrec := ih (a || (x.hall.a != initial.a)) (b || (x.hall.b != initial.b))
        (c || (x.hall.c != initial.c)) (log ++ [HwEvent.readHall x.hall]) rest
        (fun y hy => hwin y (List.mem_cons_of_mem _ hy)) hstep
        (by simpa [lineChanged, Bool.or_assoc] using hnot)
      have ea : (if (x.hall.a != initial.a) = true then true else a)
          = (a || (x.hall.a != initial.a)) := by
        cases a <;> cases (x.hall.a != initial.a) <;> rfl
      have eb : (if (x.hall.b != initial.b) = true then true else b)
          = (b || (x.hall.b != initial.b)) := by
        cases b <;> cases (x.hall.b != initial.b) <;> rfl
      have ec : (if (x.hall.c != initial.c) = true then true else c)
          = (c || (x.hall.c != initial.c)) := by
        cases c <;> cases (x.hall.c != initial.c) <;> rfl
      simp only [List.cons_append, verifyLoop, if_pos hx, ea, eb, ec, hstep]
      simp only [Bool.false_eq_true, if_false]
      refine hrec.trans ?_
      simp [lineChanged, Bool.or_assoc]

theorem verifyLoop_returns (startTime : Nat) (initial : HallLines) (polls : List PollTick) :
    ∀ (a b c : Bool) (log : List HwEvent),
      (∃ p ∈ polls, ¬ elapsed p.now startTime < 1000) →
      ∃ r, (verifyLoop startTime initial a b c log polls).1 = some r := by
  induction polls with
  | nil => intro _ _ _ _ h; simp at h
  | cons x rest ih =>
      intro a b c log h
      by_cases hg : elapsed x.now startTime < 1000
      · have hrest : ∃ q ∈ rest, ¬ elapsed q.now startTime < 1000 := by
          rcases h with ⟨q, hq, hq2⟩
          rcases List.mem_cons.mp hq with rfl | hq
          · exact absurd hg hq2
          · exact ⟨q, hq, hq2⟩
        simp only [verifyLoop, if_pos hg]
        split_ifs <;> first | exact ⟨_, rfl⟩ | exact ih _ _ _ _ hrest
      · exact ⟨false, by simp [verifyLoop, hg]⟩

theorem verifyLoop_true_iff (startTime : Nat) (initial : HallLines) (polls : List PollTick) :
    ∀ (a b c : Bool) (log : List HwEvent),
      (a && b && c) = false →
      ((verifyLoop startTime initial a b c log polls).1 = some true ↔
        ((a || lineChanged HallLines.a initial
              ((polls.takeWhile (fun x => decide (elapsed x.now startTime < 1000))).map
                PollTick.hall))
          && (b || lineChanged HallLines.b initial
              ((polls.takeWhile (fun x => decide (elapsed x.now startTime < 1000))).map
                PollTick.hall))
          && (c || lineChanged HallLines.c initial
              ((polls.takeWhile (fun x => decide (elapsed x.now startTime < 1000))).map
                PollTick.hall))) = true) := by
  induction polls with
  | nil =>
      intro a b c log h0
      simp [verifyLoop, lineChanged, h0]
  | cons x rest ih =>
      intro a b c log h0
      have ea : ∀ u v : Bool, (if v = true then true else u) = (u || v) := by
        intro u v; cases u <;> cases v <;> rfl
      by_cases hg : elapsed x.now startTime < 1000
      · simp only [verifyLoop, if_pos hg, ea, List.takeWhile_cons, hg, decide_True, if_true,
          List.map_cons]
        by_cases hall : ((a || (x.hall.a != initial.a)) && (b || (x.hall.b != initial.b))
            && (c || (x.hall.c != initial.c))) = true
        · rw [if_pos hall]
          simp only [true_iff]
          revert hall
          simp only [lineChanged, List.any_cons]
          cases a <;> cases b <;> cases c <;>
            cases (x.hall.a != initial.a) <;> cases (x.hall.b != initial.b) <;>
            cases (x.hall.c != initial.c) <;> simp
        · rw [if_neg hall]
          have hall2 := Bool.eq_false_iff.mpr hall
          rw [ih _ _ _ _ hall2]
          simp [lineChanged, Bool.or_assoc]
      · simp [verifyLoop, hg, List.takeWhile_cons, lineChanged, h0]

/-- The two ways in which `verifyHallSensors` returns: at the first poll at which
every line has changed, or when the window expires before that. -/
theorem verifyHallSensors_exit (startTime : Nat) (initial : HallLines)
    (pre : List PollTick) (p : PollTick) (post : List PollTick)
    (hwin : ∀ x ∈ pre, elapsed x.now startTime < 1000)
    (hnot : (lineChanged HallLines.a initial (pre.map PollTick.hall)
        && lineChanged HallLines.b initial (pre.map PollTick.hall)
        && lineChanged HallLines.c initial (pre.map PollTick.hall)) = false) :
    (elapsed p.now startTime < 1000 →
      (lineChanged HallLines.a initial ((pre ++ [p]).map PollTick.hall)
        && lineChanged HallLines.b initial ((pre ++ [p]).map PollTick.hall)
        && lineChanged HallLines.c initial ((pre ++ [p]).map PollTick.hall)) = true →
      verifyHallSensors
          { startTime := startTime, initial := initial, polls := pre ++ p :: post }
        = (some true,
           [HwEvent.readHall initial, HwEvent.motorMove (Flt.fin 1)]
             ++ (pre ++ [p]).map (fun x => HwEvent.readHall x.hall)
             ++ [HwEvent.motorMove (Flt.fin 0)]))
    ∧ (¬ elapsed p.now startTime < 1000 →
      verifyHallSensors
          { startTime := startTime, initial := initial, polls := pre ++ p :: post }
        = (some false,
           [HwEvent.readHall initial, HwEvent.motorMove (Flt.fin 1)]
             ++ pre.map (fun x => HwEvent.readHall x.hall)
             ++ [HwEvent.motorMove (Flt.fin 0)])) := by
  have hrun := verifyLoop_window startTime initial pre false false false
    [HwEvent.readHall initial, HwEvent.motorMove (Flt.fin 1)] (p :: post) hwin rfl
    (by simpa using hnot)
  simp only [Bool.false_or] at hrun
  refine ⟨?_, ?_⟩
  · intro hp hall
    simp only [verifyHallSensors, hrun, verifyLoop, if_pos hp]
    have ea : ∀ u v : Bool, (if v = true then true else u) = (u || v) := by
      intro u v; cases u <;> cases v <;> rfl
    simp only [ea]
    have hall2 : ((lineChanged HallLines.a initial (pre.map PollTick.hall)
          || (p.hall.a != initial.a))
        && (lineChanged HallLines.b initial (pre.map PollTick.hall) || (p.hall.b != initial.b))
        && (lineChanged HallLines.c initial (pre.map PollTick.hall) || (p.hall.c != initial.c)))
        = true := by
      simpa [lineChanged] using hall
    rw [if_pos hall2]
    simp
  · intro hp
    simp only [verifyHallSensors, hrun, verifyLoop, if_neg hp]

/-- C16: the result of `verifyHallSensors` is true exactly when each of the three
lines differed from its initial level at some poll of the window (not
necessarily the same poll); when the window expires within the given ticks the
call returns that truth value; and it returns true at the first poll at which
all three lines have changed, reading nothing after it.  The validity of the
observed codes plays no part. -/
theorem verifyHallSensors_result (env : VerifyEnv) :
    ((verifyHallSensors env).1 = some true ↔
        (lineChanged HallLines.a env.initial (pollWindow env.startTime env.polls)
          && lineChanged HallLines.b env.initial (pollWindow env.startTime env.polls)
          && lineChanged HallLines.c env.initial (pollWindow env.startTime env.polls)) = true)
    ∧ ((∃ p ∈ env.polls, ¬ elapsed p.now env.startTime < 1000) →
        (verifyHallSensors env).1
          = some (lineChanged HallLines.a env.initial (pollWindow env.startTime env.polls)
            && lineChanged HallLines.b env.initial (pollWindow env.startTime env.polls)
            && lineChanged HallLines.c env.initial (pollWindow env.startTime env.polls)))
    ∧ (∀ (pre : List PollTick) (p : PollTick) (post : List PollTick),
        env.polls = pre ++ p :: post →
        (∀ x ∈ pre, elapsed x.now env.startTime < 1000) →
        elapsed p.now env.startTime < 1000 →
        (lineChanged HallLines.a env.initial (pre.map PollTick.hall)
          && lineChanged HallLines.b env.initial (pre.map PollTick.hall)
          && lineChanged HallLines.c env.initial (pre.map PollTick.hall)) = false →
        (lineChanged HallLines.a env.initial ((pre ++ [p]).map PollTick.hall)
          && lineChanged HallLines.b env.initial ((pre ++ [p]).map PollTick.hall)
          && lineChanged HallLines.c env.initial ((pre ++ [p]).map PollTick.hall)) = true →
        verifyHallSensors env
          = (some true,
             [HwEvent.readHall env.initial, HwEvent.motorMove (Flt.fin 1)]
               ++ (pre ++ [p]).map (fun x => HwEvent.readHall x.hall)
               ++ [HwEvent.motorMove (Flt.fin 0)])) := by
  have hiff := verifyLoop_true_iff env.startTime env.initial env.polls false false false
    [HwEvent.readHall env.initial, HwEvent.motorMove (Flt.fin 1)] rfl
  simp only [Bool.false_or] at hiff
  refine ⟨hiff, ?_, ?_⟩
  · intro h
    obtain ⟨r, hr⟩ := verifyLoop_returns env.startTime env.initial env.polls false false false
      [HwEvent.readHall env.initial, HwEvent.motorMove (Flt.fin 1)] h
    have hr2 : (verifyHallSensors env).1 = some r := hr
    rw [hr2]
    cases r with
    | true =>
        have := hiff.mp hr
        simp only [pollWindow]
        rw [this]
    | false =>
        have hne : ¬ ((lineChanged HallLines.a env.initial (pollWindow env.startTime env.polls)
            && lineChanged HallLines.b env.initial (pollWindow env.startTime env.polls)
            && lineChanged HallLines.c env.initial (pollWindow env.startTime env.polls))
            = true) := by
          intro hall
          have := hiff.mpr hall
          rw [hr] at this
          simp at this
        rw [Bool.eq_false_iff.mpr hne]
  · intro pre p post hpolls hwin hp hnot hall
    have := (verifyHallSensors_exit env.startTime env.initial pre p post hwin hnot).1 hp hall
    rw [← hpolls] at this
    exact this

/-- C16 at a concrete input: starting from code 0, all three lines have changed
at the second poll (code 7), where the call returns true. -/
theorem verifyHallSensors_result_witness :
    (∃ p ∈ allToggle.polls, ¬ elapsed p.now allToggle.startTime < 1000)
    ∧ (verifyHallSensors allToggle).1 = some true
    ∧ (verifyHallSensors allToggle).1
        = some (lineChanged HallLines.a allToggle.initial
            (pollWindow allToggle.startTime allToggle.polls)
          && lineChanged HallLines.b allToggle.initial
            (pollWindow allToggle.startTime allToggle.polls)
          && lineChanged HallLines.c allToggle.initial
            (pollWindow allToggle.startTime allToggle.polls)) :=
  have hex : ∃ p ∈ allToggle.polls, ¬ elapsed p.now allToggle.startTime < 1000 :=
    ⟨{ now := 1000, hall := { a := true, b := true, c := true } },
      by simp [allToggle], by decide⟩
  ⟨hex, by decide, (verifyHallSensors_result allToggle).2.1 hex⟩

/-! ## Theorems: parameter measurement -/

theorem ite_append (c : Prop) [Decidable c] (m y : String) :
    (if c then m ++ y else m) = m ++ (if c then y else "") := by
  split <;> simp

/-- The health message is the concatenation of the six pieces, or the fixed text
when that concatenation is empty. -/
theorem healthMessage_pieces (phases : PhaseStatus) (halls : HallStatus) :
    healthMessage phases halls
      = (if (healthPieces phases halls).length = 0 then "All systems operational"
         else healthPieces phases halls) := by
  simp only [healthMessage, healthPieces, ite_append, healthPiece]

theorem startsOtherThanA_append (m y : String) (h : startsOtherThanA m) :
    startsOtherThanA (m ++ y) := by
  obtain ⟨c, rest, hd, hc⟩ := h
  exact ⟨c, rest ++ y.data, by simp [String.data_append, hd], hc⟩

theorem healthPiece_cases (ok : Bool) (label diagnosis : String)
    (hl : startsOtherThanA label) :
    (ok = true ∧ healthPiece ok label diagnosis = "")
    ∨ (ok = false ∧ startsOtherThanA (healthPiece ok label diagnosis)) := by
  cases ok with
  | true => exact Or.inl ⟨rfl, by simp [healthPiece]⟩
  | false =>
      refine Or.inr ⟨rfl, ?_⟩
      simp only [healthPiece, Bool.not_false, if_true]
      exact startsOtherThanA_append _ _ (startsOtherThanA_append _ _ hl)

theorem pieces_step (m : String) (b ok : Bool) (label diagnosis : String)
    (hl : startsOtherThanA label)
    (hm : (b = true ∧ m = "") ∨ (b = false ∧ startsOtherThanA m)) :
    ((b && ok) = true ∧ m ++ healthPiece ok label diagnosis = "")
    ∨ ((b && ok) = false ∧ startsOtherThanA (m ++ healthPiece ok label diagnosis)) := by
  rcases hm with ⟨hb, hm⟩ | ⟨hb, hm⟩
  · subst hb; subst hm
    rcases healthPiece_cases ok label diagnosis hl with ⟨h1, h2⟩ | ⟨h1, h2⟩
    · exact Or.inl ⟨by simp [h1], by simp [h2]⟩
    · refine Or.inr ⟨by simp [h1], ?_⟩
      simpa using h2
  · exact Or.inr ⟨by simp [hb], startsOtherThanA_append _ _ hm⟩

theorem healthMessage_iff (phases : PhaseStatus) (halls : HallStatus) :
    healthMessage phases halls = "All systems operational" ↔
      (phases.phaseA_OK = true ∧ phases.phaseB_OK = true ∧ phases.phaseC_OK = true
        ∧ halls.hallA_OK = true ∧ halls.hallB_OK = true ∧ halls.hallC_OK = true) := by
  have hP : startsOtherThanA "Phase A: " := ⟨'P', _, rfl, by decide⟩
  have hP2 : startsOtherThanA "Phase B: " := ⟨'P', _, rfl, by decide⟩
  have hP3 : startsOtherThanA "Phase C: " := ⟨'P', _, rfl, by decide⟩
  have hH : startsOtherThanA "Hall A: " := ⟨'H', _, rfl, by decide⟩
  have hH2 : startsOtherThanA "Hall B: " := ⟨'H', _, rfl, by decide⟩
  have hH3 : startsOtherThanA "Hall C: " := ⟨'H', _, rfl, by decide⟩
  have h6 := pieces_step _ _ halls.hallC_OK "Hall C: " (getHallError halls.hallC_changing) hH3
    (pieces_step _ _ halls.hallB_OK "Hall B: " (getHallError halls.hallB_changing) hH2
    (pieces_step _ _ halls.hallA_OK "Hall A: " (getHallError halls.hallA_changing) hH
    (pieces_step _ _ phases.phaseC_OK "Phase C: " (getPhaseError phases.phaseC_resistance) hP3
    (pieces_step _ _ phases.phaseB_OK "Phase B: " (getPhaseError phases.phaseB_resistance) hP2
    (pieces_step "" true phases.phaseA_OK "Phase A: "
      (getPhaseError phases.phaseA_resistance) hP (Or.inl ⟨rfl, rfl⟩))))))
  rw [healthMessage_pieces]
  change _ ∨ (_ ∧ startsOtherThanA (healthPieces phases halls)) at h6
  rcases h6 with ⟨hb, hm⟩ | ⟨hb, hm⟩
  · have hm2 : healthPieces phases halls = "" := hm
    rw [hm2]
    simp only [Bool.and_eq_true, Bool.true_and] at hb
    simp only [String.length_empty, if_true, true_iff]
    tauto
  · obtain ⟨c, rest, hd, hc⟩ := hm
    have hlen : ∀ m : String, m.data = c :: rest → m.length ≠ 0 := by
      intro m hmd
      have : m.length = m.data.length := rfl
      rw [this, hmd]
      simp
    rw [if_neg (hlen _ hd)]
    constructor
    · intro heq
      rw [heq] at hd
      have : c = 'A' := by
        have h0 : ("All systems operational".data).head? = some c := by rw [hd]; rfl
        have h1 : ("All systems operational".data).head? = some 'A' := by decide
        rw [h1] at h0
        exact (Option.some.inj h0).symm
      exact absurd this hc
    · intro hall
      obtain ⟨h1, h2, h3, h4, h5, h6⟩ := hall
      simp [h1, h2, h3, h4, h5, h6] at hb

theorem checkMotorHealth_returns (current : Nat → Flt) (env : HallEnv)
    (h : ∃ p ∈ env.polls, ¬ elapsed p.now env.startTime < 1000) :
    ∃ halls, (checkMotorHealth current env).1
      = some {
          phases := (checkPhaseConnections
            { phaseA_OK := true, phaseB_OK := true, phaseC_OK := true,
              phaseA_resistance := Flt.fin 0, phaseB_resistance := Flt.fin 0,
              phaseC_resistance := Flt.fin 0 } current).1,
          halls := halls,
          inductanceOK := false,
          motorTemperatureOK := true,
          errorMessage := healthMessage (checkPhaseConnections
            { phaseA_OK := true, phaseB_OK := true, phaseC_OK := true,
              phaseA_resistance := Flt.fin 0, phaseB_resistance := Flt.fin 0,
              phaseC_resistance := Flt.fin 0 } current).1 halls } := by
  obtain ⟨st, hst⟩ := checkHallLoop_returns env.startTime env.initial env.polls
    { hallA_OK := true, hallB_OK := true, hallC_OK := true,
      hallA_changing := false, hallB_changing := false, hallC_changing := false }
    [HwEvent.readHall env.initial, HwEvent.motorMove (Flt.fin 1)] h
  have hpair : checkHallLoop env.startTime env.initial
      { hallA_OK := true, hallB_OK := true, hallC_OK := true,
        hallA_changing := false, hallB_changing := false, hallC_changing := false }
      [HwEvent.readHall env.initial, HwEvent.motorMove (Flt.fin 1)] env.polls
      = (some st, (checkHallLoop env.startTime env.initial
          { hallA_OK := true, hallB_OK := true, hallC_OK := true,
            hallA_changing := false, hallB_changing := false, hallC_changing := false }
          [HwEvent.readHall env.initial, HwEvent.motorMove (Flt.fin 1)] env.polls).2) := by
    rw [← hst]
  refine ⟨validateHallPatterns { st with
        hallA_OK := st.hallA_changing,
        hallB_OK := st.hallB_changing,
        hallC_OK := st.hallC_changing } env.reread, ?_⟩
  simp only [checkMotorHealth, checkHallSensors]
  rw [hpair]

/-- C11: when the hall window expires within the given ticks, `checkMotorHealth`
returns a report whose message is the literal "All systems operational" if and
only if all three phase OK flags and all three hall OK flags are true. -/
theorem checkMotorHealth_message (current : Nat → Flt) (env : HallEnv)
    (h : ∃ p ∈ env.polls, ¬ elapsed p.now env.startTime < 1000) :
    ∃ health, (checkMotorHealth current env).1 = some health
      ∧ (health.errorMessage = "All systems operational" ↔
          (health.phases.phaseA_OK = true ∧ health.phases.phaseB_OK = true
            ∧ health.phases.phaseC_OK = true ∧ health.halls.hallA_OK = true
            ∧ health.halls.hallB_OK = true ∧ health.halls.hallC_OK = true)) := by
  obtain ⟨halls, hres⟩ := checkMotorHealth_returns current env h
  exact ⟨_, hres, healthMessage_iff _ _⟩

theorem hallsToggle_checked :
    (checkHallSensors
      { hallA_OK := true, hallB_OK := true, hallC_OK := true,
        hallA_changing := false, hallB_changing := false, hallC_changing := false }
      hallsToggle).1
      = some { hallA_OK := true, hallB_OK := true, hallC_OK := true,
               hallA_changing := true, hallB_changing := true, hallC_changing := true } := by
  decide

theorem quarterAmp_phases :
    (checkPhaseConnections
      { phaseA_OK := true, phaseB_OK := true, phaseC_OK := true,
        phaseA_resistance := Flt.fin 0, phaseB_resistance := Flt.fin 0,
        phaseC_resistance := Flt.fin 0 } (fun _ => Flt.fin (1 / 4))).1
      = { phaseA_OK := true, phaseB_OK := true, phaseC_OK := true,
          phaseA_resistance := Flt.fin 2, phaseB_resistance := Flt.fin 2,
          phaseC_resistance := Flt.fin 2 } := by
  simp only [checkPhaseConnections_fst, phaseStore, Flt.div, Flt.ge, Flt.le]
  norm_num

theorem quarterAmp_health :
    (checkMotorHealth (fun _ => Flt.fin (1 / 4)) hallsToggle).1
      = some {
          phases := { phaseA_OK := true, phaseB_OK := true, phaseC_OK := true,
                      phaseA_resistance := Flt.fin 2, phaseB_resistance := Flt.fin 2,
                      phaseC_resistance := Flt.fin 2 },
          halls := { hallA_OK := true, hallB_OK := true, hallC_OK := true,
                     hallA_changing := true, hallB_changing := true,
                     hallC_changing := true },
          inductanceOK := false,
          motorTemperatureOK := true,
          errorMessage := healthMessage
            { phaseA_OK := true, phaseB_OK := true, phaseC_OK := true,
              phaseA_resistance := Flt.fin 2, phaseB_resistance := Flt.fin 2,
              phaseC_resistance := Flt.fin 2 }
            { hallA_OK := true, hallB_OK := true, hallC_OK := true,
              hallA_changing := true, hallB_changing := true,
              hallC_changing := true } } := by
  have hpair : checkHallSensors
      { hallA_OK := true, hallB_OK := true, hallC_OK := true,
        hallA_changing := false, hallB_changing := false, hallC_changing := false }
      hallsToggle
      = (some { hallA_OK := true, hallB_OK := true, hallC_OK := true,
                hallA_changing := true, hallB_changing := true,
                hallC_changing := true },
         (checkHallSensors
            { hallA_OK := true, hallB_OK := true, hallC_OK := true,
              hallA_changing := false, hallB_changing := false,
              hallC_changing := false } hallsToggle).2) := by
    rw [← hallsToggle_checked]
  simp only [checkMotorHealth]
  rw [hpair]
  simp only [quarterAmp_phases]

/-- C11 at a concrete input: 0.25 A in every pass (2.0 ohm per phase), all halls
toggling and a valid re-read code give the message "All systems operational". -/
theorem checkMotorHealth_message_witness :
    (∃ p ∈ hallsToggle.polls, ¬ elapsed p.now hallsToggle.startTime < 1000)
    ∧ ∃ health, (checkMotorHealth (fun _ => Flt.fin (1 / 4)) hallsToggle).1 = some health
        ∧ health.phases.phaseA_resistance = Flt.fin 2
        ∧ health.errorMessage = "All systems operational" :=
  have hex : ∃ p ∈ hallsToggle.polls, ¬ elapsed p.now hallsToggle.startTime < 1000 :=
    ⟨{ now := 1000, hall := { a := true, b := true, c := false } },
      by simp [hallsToggle], by decide⟩
  ⟨hex,
    match checkMotorHealth_message (fun _ => Flt.fin (1 / 4)) hallsToggle hex with
    | ⟨health, hres, hiff⟩ =>
        have hh : health = _ := Option.some.inj (hres.symm.trans quarterAmp_health)
        ⟨health, hres, by rw [hh],
          hiff.mpr (by rw [hh]; exact ⟨rfl, rfl, rfl, rfl, rfl, rfl⟩)⟩⟩

/-! ## Theorems: open-circuit diagnosis -/

end BldcTester
